import Mathlib

/-!
# key-conjurer: credentials validity, shell emission, role resolution, port reservation

A shallow embedding of `cli/credentials.go`, `cli/saml.go`, the parts of
`cli/get.go` that fix the time-to-live and build the credentials record,
`findFirstFreePort` of `command/login.go`, and the device selection of
`api/authenticators/onelogin_duo/authenticator.go`.

Conventions of the embedding

* A Go `string` is a Lean `String`; positions count characters.  Every
  pattern the code searches for (`,`, `/`, `role/`, `saml-provider/`) is
  ASCII, so searching by character and searching by byte find the same
  occurrences in valid UTF-8 text.
* A Go pointer that may be `nil` is an `Option`.
* A run-time panic is the `Except.error` outcome of a function returning
  `Except RuntimeError _`.
* An `io.Writer` is the text written so far: a write appends to it.
* Library code the repository calls but does not contain (`time.Parse`, the
  Unicode tables behind `%q` and `strings.EqualFold`, the SAML document type,
  `os.Getenv`, `net.ListenConfig.Listen`, the STS clients) and the constants
  declared outside these files (`cloudAws`, `cloudTencent`) are parameters of
  the definitions that use them.
* A function with side effects returns, next to its results, the record of
  the effects a property speaks about (the listen attempts of
  `findFirstFreePort`).
* Go `uint` and `int64` are `Nat` and `Int`; the one product that can wrap,
  `int64(3600 * TTL)`, is reduced modulo `2 ^ 64`.
-/

namespace KeyConjurer

/-! ## Go run-time and library primitives -/

/-- The run-time panics the embedded code can raise. -/
inductive RuntimeError where
  | sliceBoundsOutOfRange
  | indexOutOfRange
  deriving DecidableEq, Repr

/-- Position of the first occurrence of `sub` in `s` at or after offset `i`
(the characters of `s` before `i` are already consumed), or `-1`. -/
def indexFrom (sub : List Char) : List Char → Nat → Int
  | [], i => if sub = [] then (i : Int) else -1
  | c :: cs, i => if sub.isPrefixOf (c :: cs) then (i : Int) else indexFrom sub cs (i + 1)

/-- Go `strings.Index(s, substr)`: first position of `substr` in `s`, `-1` when absent. -/
def Index (s substr : String) : Int := indexFrom substr.data s.data 0

/-- Go `strings.Contains(s, substr)`. -/
def Contains (s substr : String) : Bool := decide (0 ≤ Index s substr)

/-- Go slice expression `s[idx:]`: panics unless `0 ≤ idx ≤ len(s)`. -/
def sliceFrom (s : String) (idx : Int) : Except RuntimeError String :=
  if 0 ≤ idx ∧ idx ≤ (s.length : Int) then .ok ⟨s.data.drop idx.toNat⟩
  else .error .sliceBoundsOutOfRange

/-- Go index expression `parts[i]` on a slice: panics when `i` is out of range. -/
def indexAt (parts : List String) (i : Nat) : Except RuntimeError String :=
  match parts.get? i with
  | some p => .ok p
  | none => .error .indexOutOfRange

/-- Worker of `Split` for a non-empty separator: `skip` counts the characters
of a separator occurrence still to be consumed, `cur` is the current piece
in reverse. -/
def splitGo (sep : List Char) : List Char → Nat → List Char → List (List Char)
  | [], _, cur => [cur.reverse]
  | _ :: cs, skip + 1, cur => splitGo sep cs skip cur
  | c :: cs, 0, cur =>
      if sep.isPrefixOf (c :: cs) then cur.reverse :: splitGo sep cs (sep.length - 1) []
      else splitGo sep cs 0 (c :: cur)

/-- Go `strings.Split(s, sep)`: the pieces of `s` between the non-overlapping
occurrences of `sep`, leftmost first; an empty `sep` splits after every
character. -/
def Split (s sep : String) : List String :=
  if sep.data = [] then s.data.map (fun c => String.mk [c])
  else (splitGo sep.data s.data 0 []).map String.mk

/-- One step of Go `strings.EqualFold`: two characters are equal under
case folding.  ASCII pairs are decided as the library does; `orbit lo hi`
answers for a pair `lo < hi` whose larger member is not ASCII (the library
walks `unicode.SimpleFold` there). -/
def equalFoldRune (orbit : Char → Char → Bool) (sr tr : Char) : Bool :=
  if tr = sr then true
  else
    let lo := if tr.toNat < sr.toNat then tr else sr
    let hi := if tr.toNat < sr.toNat then sr else tr
    if hi.toNat < 128 then
      decide ('A'.toNat ≤ lo.toNat ∧ lo.toNat ≤ 'Z'.toNat ∧ hi.toNat = lo.toNat + 32)
    else orbit lo hi

/-- Character-wise worker of `EqualFold`. -/
def equalFoldList (orbit : Char → Char → Bool) : List Char → List Char → Bool
  | [], [] => true
  | sr :: s, tr :: t => equalFoldRune orbit sr tr && equalFoldList orbit s t
  | _, _ => false

/-- Go `strings.EqualFold(s, t)`: equality under Unicode simple case folding. -/
def EqualFold (orbit : Char → Char → Bool) (s t : String) : Bool :=
  equalFoldList orbit s.data t.data

/-- Go `lowerhex[n]` for `n < 16`. -/
def hexDigit (n : Nat) : Char := "0123456789abcdef".data.getD (n % 16) '0'

/-- Go `strconv.IsPrint`: Latin-1 is decided inline, the rest by the
library's tables, here `isPrintTable`. -/
def IsPrint (isPrintTable : Char → Bool) (r : Char) : Bool :=
  if r.toNat ≤ 0xFF then
    if 0x20 ≤ r.toNat ∧ r.toNat ≤ 0x7E then true
    else if 0xA1 ≤ r.toNat ∧ r.toNat ≤ 0xFF then decide (r.toNat ≠ 0xAD)
    else false
  else isPrintTable r

/-- Go `strconv.appendEscapedRune` with a double quote as the quote
character: the characters one rune of the value contributes to `%q`. -/
def escapeRune (isPrintTable : Char → Bool) (r : Char) : List Char :=
  if r = '"' ∨ r = '\\' then ['\\', r]
  else if IsPrint isPrintTable r then [r]
  else if r.toNat = 7 then ['\\', 'a']
  else if r.toNat = 8 then ['\\', 'b']
  else if r.toNat = 12 then ['\\', 'f']
  else if r.toNat = 10 then ['\\', 'n']
  else if r.toNat = 13 then ['\\', 'r']
  else if r.toNat = 9 then ['\\', 't']
  else if r.toNat = 11 then ['\\', 'v']
  else if r.toNat < 0x20 ∨ r.toNat = 0x7F then
    ['\\', 'x', hexDigit (r.toNat / 16), hexDigit r.toNat]
  else if r.toNat < 0x10000 then
    ['\\', 'u', hexDigit (r.toNat / 4096), hexDigit (r.toNat / 256),
      hexDigit (r.toNat / 16), hexDigit r.toNat]
  else
    ['\\', 'U', hexDigit (r.toNat / 268435456), hexDigit (r.toNat / 16777216),
      hexDigit (r.toNat / 1048576), hexDigit (r.toNat / 65536),
      hexDigit (r.toNat / 4096), hexDigit (r.toNat / 256),
      hexDigit (r.toNat / 16), hexDigit r.toNat]

/-- Go `strconv.Quote`, which is what the verb `%q` prints for a string. -/
def quote (isPrintTable : Char → Bool) (s : String) : String :=
  ⟨'"' :: (s.data.flatMap (escapeRune isPrintTable) ++ ['"'])⟩

/-! ## Time -/

/-- An instant of Go `time.Time`, in nanoseconds since the Unix epoch. -/
abbrev Time := Int

/-- Go `time.Duration`, in nanoseconds. -/
abbrev Duration := Int

/-- Go `Time.Add`. -/
def Time.Add (t : Time) (d : Duration) : Time := t + d

/-- Go `Time.After`: `t` is strictly later than `u`. -/
def Time.After (t u : Time) : Bool := decide (u < t)

/-! ## cli/credentials.go -/

/-- An account of the configuration; `credentials.go` reads only `ID`. -/
structure Account where
  ID : String
  Name : String
  Alias : String
  deriving DecidableEq, Repr

/-- The record `CloudCredentials`. -/
structure CloudCredentials where
  AccountID : String
  AccessKeyID : String
  SecretAccessKey : String
  SessionToken : String
  Expiration : String
  credentialsType : String
  deriving DecidableEq, Repr

/-- `(*CloudCredentials).ValidUntil`, with `time.Parse(time.RFC3339, ·)` as
`parse` and the reading of `time.Now()` as `now`. -/
def ValidUntil (parse : String → Option Time) (now : Time)
    (c : Option CloudCredentials) (account : Option Account) (dur : Duration) : Bool :=
  match account, c with
  | none, _ => false
  | _, none => false
  | some account, some c =>
    if c.AccountID ≠ account.ID then false
    else
      match parse c.Expiration with
      | none => false
      | some expiration => Time.After expiration (Time.Add now dur)

/-! ### A reference reading of RFC 3339 timestamps

`ValidUntil` is parametric in the parser.  The concrete instances below use
this one: the strict form `YYYY-MM-DDThh:mm:ss[.fraction](Z|±hh:mm)` which
`time.Parse(time.RFC3339, ·)` accepts on its direct path. -/

/-- Leap years of the proleptic Gregorian calendar. -/
def isLeap (year : Nat) : Bool :=
  year % 4 = 0 && (year % 100 ≠ 0 || year % 400 = 0)

/-- Number of days of a month. -/
def daysIn (month year : Nat) : Nat :=
  if month = 2 then (if isLeap year then 29 else 28)
  else if month = 4 ∨ month = 6 ∨ month = 9 ∨ month = 11 then 30
  else 31

/-- Days from 0000-01-01 to the first day of `year`. -/
def daysBeforeYear (year : Nat) : Nat :=
  if year = 0 then 0
  else 365 * year + ((year - 1) / 4 - (year - 1) / 100 + (year - 1) / 400 + 1)

/-- Days from the first day of `year` to the first day of `month`. -/
def daysBeforeMonth (month year : Nat) : Nat :=
  ((List.range (month - 1)).map (fun i => daysIn (i + 1) year)).sum

/-- Seconds since the Unix epoch of a civil date and time in UTC. -/
def unixSeconds (year month day hour min sec : Nat) : Int :=
  (((daysBeforeYear year + daysBeforeMonth month year + (day - 1) : Nat) : Int) - 719528) * 86400
    + ((hour * 3600 + min * 60 + sec : Nat) : Int)

/-- A decimal digit. -/
def isDigit (c : Char) : Bool := decide ('0'.toNat ≤ c.toNat ∧ c.toNat ≤ '9'.toNat)

/-- An unsigned decimal number, all of whose characters are digits, within `[lo, hi]`. -/
def parseUint (s : List Char) (lo hi : Nat) : Option Nat :=
  if s.all isDigit then
    let x := s.foldl (fun acc c => acc * 10 + (c.toNat - '0'.toNat)) 0
    if lo ≤ x ∧ x ≤ hi then some x else none
  else none

/-- Nanoseconds denoted by the digits of a fraction of a second (at most nine count). -/
def parseNanoseconds (digits : List Char) : Nat :=
  let ds := digits.take 9
  ds.foldl (fun acc c => acc * 10 + (c.toNat - '0'.toNat)) 0 * 10 ^ (9 - ds.length)

/-- The instant a strict RFC 3339 timestamp denotes, `none` when the text is not one. -/
def parseRFC3339 (s : String) : Option Time :=
  let cs := s.data
  if cs.length < 19 then none
  else do
    let year ← parseUint (cs.take 4) 0 9999
    let month ← parseUint ((cs.drop 5).take 2) 1 12
    let day ← parseUint ((cs.drop 8).take 2) 1 (daysIn month year)
    let hour ← parseUint ((cs.drop 11).take 2) 0 23
    let min ← parseUint ((cs.drop 14).take 2) 0 59
    let sec ← parseUint ((cs.drop 17).take 2) 0 59
    if ¬ (cs.get? 4 = some '-' ∧ cs.get? 7 = some '-' ∧ cs.get? 10 = some 'T'
        ∧ cs.get? 13 = some ':' ∧ cs.get? 16 = some ':') then none
    else
      let rest := cs.drop 19
      let frac :=
        match rest with
        | '.' :: d :: ds => if isDigit d then (d :: ds).takeWhile isDigit else []
        | _ => []
      let nsec := if frac = [] then 0 else parseNanoseconds frac
      let zone := if frac = [] then rest else rest.drop (1 + frac.length)
      let utc : Int := unixSeconds year month day hour min sec * 1000000000 + (nsec : Int)
      if zone = ['Z'] then some utc
      else if zone.length ≠ 6 then none
      else do
        let hr ← parseUint ((zone.drop 1).take 2) 0 23
        let mm ← parseUint ((zone.drop 4).take 2) 0 59
        if ¬ ((zone.get? 0 = some '-' ∨ zone.get? 0 = some '+') ∧ zone.get? 3 = some ':') then none
        else
          let offset : Int := (((hr * 60 + mm) * 60 : Nat) : Int) * 1000000000
          some (if zone.get? 0 = some '-' then utc + offset else utc - offset)

/-! ### Shell dialects -/

/-- Go `type ShellType = string`. -/
abbrev ShellType := String

/-- Constant `shellTypePowershell`. -/
def shellTypePowershell : ShellType := "powershell"
/-- Constant `shellTypeBash`. -/
def shellTypeBash : ShellType := "bash"
/-- Constant `shellTypeBasic`. -/
def shellTypeBasic : ShellType := "basic"
/-- Constant `shellTypeInfer`. -/
def shellTypeInfer : ShellType := "infer"

/-- The three implementations of the interface `shellWriter`. -/
inductive shellWriter where
  | bashWriter
  | powershellWriter
  | basicWriter
  deriving DecidableEq, Repr

/-- Method `WriteVariable` of the three writers: `w` is the text written so
far, the result is the text after the call. -/
def shellWriter.WriteVariable (isPrintTable : Char → Bool) :
    shellWriter → String → String → String → String
  | .bashWriter, w, key, value =>
      w ++ ("export " ++ key ++ "=" ++ quote isPrintTable value ++ "\n")
  | .powershellWriter, w, key, value =>
      w ++ ("$Env:" ++ key ++ " = " ++ quote isPrintTable value ++ "\n")
  | .basicWriter, w, key, value =>
      w ++ ("SET " ++ key ++ "=" ++ value ++ "\n")

/-- Method `WriteAlias` of the three writers. -/
def shellWriter.WriteAlias : shellWriter → String → String → String → String
  | .bashWriter, w, key, name => w ++ ("export " ++ key ++ "=$" ++ name ++ "\n")
  | .powershellWriter, w, key, name => w ++ ("$Env:" ++ key ++ " = $Env:" ++ name ++ "\n")
  | .basicWriter, w, key, name => w ++ ("SET " ++ key ++ "=%" ++ name ++ "%\n")

/-- The AWS case of the second switch of `WriteFormat`. -/
def writeAws (isPrintTable : Char → Bool) (writer : shellWriter) (c : CloudCredentials)
    (w : String) : String :=
  let w := writer.WriteVariable isPrintTable w "AWS_ACCESS_KEY_ID" c.AccessKeyID
  let w := writer.WriteVariable isPrintTable w "AWS_SECRET_ACCESS_KEY" c.SecretAccessKey
  let w := writer.WriteVariable isPrintTable w "AWS_SESSION_TOKEN" c.SessionToken
  let w := writer.WriteAlias w "AWS_SECURITY_TOKEN" "AWS_SESSION_TOKEN"
  let w := writer.WriteAlias w "TF_VAR_access_key" "AWS_ACCESS_KEY_ID"
  let w := writer.WriteAlias w "TF_VAR_secret_key" "AWS_SECRET_ACCESS_KEY"
  let w := writer.WriteAlias w "TF_VAR_token" "AWS_SESSION_TOKEN"
  let w := writer.WriteVariable isPrintTable w "AWSKEY_EXPIRATION" c.Expiration
  writer.WriteVariable isPrintTable w "AWSKEY_ACCOUNT" c.AccountID

/-- The Tencent case of the second switch of `WriteFormat`. -/
def writeTencent (isPrintTable : Char → Bool) (writer : shellWriter) (c : CloudCredentials)
    (w : String) : String :=
  let w := writer.WriteVariable isPrintTable w "TENCENTCLOUD_SECRET_ID" c.AccessKeyID
  let w := writer.WriteVariable isPrintTable w "TENCENTCLOUD_SECRET_KEY" c.SecretAccessKey
  let w := writer.WriteVariable isPrintTable w "TENCENTCLOUD_TOKEN" c.SessionToken
  let w := writer.WriteAlias w "TENCENT_SECURITY_TOKEN" "TENCENTCLOUD_TOKEN"
  let w := writer.WriteAlias w "TF_VAR_access_key" "TENCENTCLOUD_SECRET_ID"
  let w := writer.WriteAlias w "TF_VAR_secret_key" "TENCENTCLOUD_SECRET_KEY"
  let w := writer.WriteAlias w "TF_VAR_token" "TENCENTCLOUD_TOKEN"
  let w := writer.WriteVariable isPrintTable w "TENCENTKEY_EXPIRATION" c.Expiration
  writer.WriteVariable isPrintTable w "TENCENTKEY_ACCOUNT" c.AccountID

/-- `CloudCredentials.WriteFormat`.  `cloudAws` and `cloudTencent` are the
cloud-type constants, `inferred` is what `getShellType()` answers in the
running process, `w` is the text already in the writer. -/
def WriteFormat (cloudAws cloudTencent : String) (isPrintTable : Char → Bool)
    (inferred : ShellType) (c : CloudCredentials) (w : String) (format : ShellType) : String :=
  let format := if format = shellTypeInfer then inferred else format
  let writer :=
    if format = shellTypeBash then shellWriter.bashWriter
    else if format = shellTypePowershell then shellWriter.powershellWriter
    else if format = shellTypeBasic then shellWriter.basicWriter
    else shellWriter.bashWriter
  if c.credentialsType = cloudAws then writeAws isPrintTable writer c w
  else if c.credentialsType = cloudTencent then writeTencent isPrintTable writer c w
  else writeAws isPrintTable writer c w

/-! ## cli/saml.go -/

/-- The record `RoleProviderPair`. -/
structure RoleProviderPair where
  RoleARN : String
  ProviderARN : String
  deriving DecidableEq, Repr

/-- A parsed SAML response (`saml.Response` of the SAML library): the code
reads it only through `GetAttributeValues`. -/
structure Response where
  GetAttributeValues : String → List String

/-- The attribute name `roleURL` both functions look up. -/
def roleURL : String := "https://aws.amazon.com/SAML/Attributes/Role"

/-- The constant `roleSubstr`. -/
def roleSubstr : String := "role/"

/-- Function `getARN`. -/
def getARN (value : String) : RoleProviderPair :=
  match Split value "," with
  | r0 :: r1 :: _ =>
      if Contains r0 "saml-provider/" then { ProviderARN := r0, RoleARN := r1 }
      else { ProviderARN := r1, RoleARN := r0 }
  | _ => { RoleARN := "", ProviderARN := "" }

/-- The role name of a pair, as both loops compute it:
`strings.Split(p.RoleARN[strings.Index(p.RoleARN, "role/"):], "/")[1]`. -/
def roleNameOf (p : RoleProviderPair) : Except RuntimeError String := do
  let idx := Index p.RoleARN roleSubstr
  let tail ← sliceFrom p.RoleARN idx
  let parts := Split tail "/"
  indexAt parts 1

/-- The loop of `ListSAMLRoles`; `names` is the slice built so far. -/
def listLoop : List String → List String → Except RuntimeError (List String)
  | [], names => .ok names
  | v :: vs, names => do
      let name ← roleNameOf (getARN v)
      listLoop vs (names ++ [name])

/-- Function `ListSAMLRoles`. -/
def ListSAMLRoles (response : Option Response) : Except RuntimeError (List String) :=
  match response with
  | none => .ok []
  | some response => listLoop (response.GetAttributeValues roleURL) []

/-- The matching loop of `FindRoleInSAML`; `pair` is the variable `pair`. -/
def findLoop (orbit : Char → Char → Bool) (roleName : String) :
    List RoleProviderPair → RoleProviderPair → Except RuntimeError RoleProviderPair
  | [], pair => .ok pair
  | p :: ps, pair => do
      let name ← roleNameOf p
      findLoop orbit roleName ps (if EqualFold orbit name roleName then p else pair)

/-- Function `FindRoleInSAML`. -/
def FindRoleInSAML (orbit : Char → Char → Bool) (roleName : String)
    (response : Option Response) : Except RuntimeError (RoleProviderPair × Bool) :=
  let rpp : RoleProviderPair := { RoleARN := "", ProviderARN := "" }
  match response with
  | none => .ok (rpp, false)
  | some response =>
    let attrs := response.GetAttributeValues roleURL
    if attrs.length = 0 then .ok (rpp, false)
    else
      let pairs := (response.GetAttributeValues roleURL).map getARN
      if pairs.length = 0 then .ok (rpp, false)
      else do
        let pair ← findLoop orbit roleName pairs { RoleARN := "", ProviderARN := "" }
        if pair.RoleARN = "" then .ok (rpp, false) else .ok (pair, true)

/-! ## Notions of the specification

The texts the specification expects from `WriteFormat`, and the words
"well formed" and "matches" of its statements on role resolution. -/

/-- The nine entries the specification lists for the bash dialect, without
their line ends; `q` is the quoting of values. -/
def specBashLines (q : String → String) (c : CloudCredentials) : List String :=
  [ "export AWS_ACCESS_KEY_ID=" ++ q c.AccessKeyID,
    "export AWS_SECRET_ACCESS_KEY=" ++ q c.SecretAccessKey,
    "export AWS_SESSION_TOKEN=" ++ q c.SessionToken,
    "export AWS_SECURITY_TOKEN=$AWS_SESSION_TOKEN",
    "export TF_VAR_access_key=$AWS_ACCESS_KEY_ID",
    "export TF_VAR_secret_key=$AWS_SECRET_ACCESS_KEY",
    "export TF_VAR_token=$AWS_SESSION_TOKEN",
    "export AWSKEY_EXPIRATION=" ++ q c.Expiration,
    "export AWSKEY_ACCOUNT=" ++ q c.AccountID ]

/-- The nine entries the specification lists for the PowerShell dialect. -/
def specPowershellLines (q : String → String) (c : CloudCredentials) : List String :=
  [ "$Env:AWS_ACCESS_KEY_ID = " ++ q c.AccessKeyID,
    "$Env:AWS_SECRET_ACCESS_KEY = " ++ q c.SecretAccessKey,
    "$Env:AWS_SESSION_TOKEN = " ++ q c.SessionToken,
    "$Env:AWS_SECURITY_TOKEN = $Env:AWS_SESSION_TOKEN",
    "$Env:TF_VAR_access_key = $Env:AWS_ACCESS_KEY_ID",
    "$Env:TF_VAR_secret_key = $Env:AWS_SECRET_ACCESS_KEY",
    "$Env:TF_VAR_token = $Env:AWS_SESSION_TOKEN",
    "$Env:AWSKEY_EXPIRATION = " ++ q c.Expiration,
    "$Env:AWSKEY_ACCOUNT = " ++ q c.AccountID ]

/-- The nine entries the specification lists for the basic dialect: values verbatim. -/
def specBasicLines (c : CloudCredentials) : List String :=
  [ "SET AWS_ACCESS_KEY_ID=" ++ c.AccessKeyID,
    "SET AWS_SECRET_ACCESS_KEY=" ++ c.SecretAccessKey,
    "SET AWS_SESSION_TOKEN=" ++ c.SessionToken,
    "SET AWS_SECURITY_TOKEN=%AWS_SESSION_TOKEN%",
    "SET TF_VAR_access_key=%AWS_ACCESS_KEY_ID%",
    "SET TF_VAR_secret_key=%AWS_SECRET_ACCESS_KEY%",
    "SET TF_VAR_token=%AWS_SESSION_TOKEN%",
    "SET AWSKEY_EXPIRATION=" ++ c.Expiration,
    "SET AWSKEY_ACCOUNT=" ++ c.AccountID ]

/-- Terminate every line with a line feed and concatenate. -/
def unlines (lines : List String) : String :=
  String.join (lines.map (fun l => l ++ "\n"))

/-- An attribute value is well formed when the role ARN `getARN` extracts
from it contains `role/`. -/
def WellFormed (value : String) : Bool := Contains (getARN value).RoleARN roleSubstr

/-- The role name extracted from an attribute value equals `name` ignoring case. -/
def matchesRole (orbit : Char → Char → Bool) (name value : String) : Bool :=
  match roleNameOf (getARN value) with
  | .ok n => EqualFold orbit n name
  | .error _ => false

/-! ## Concrete inputs -/

/-- The credentials of the tests: account `1234`, expiring at 01:00 UTC on 1 January 2024. -/
def sampleCredentials : CloudCredentials :=
  { AccountID := "1234", AccessKeyID := "1234", SecretAccessKey := "accesskey",
    SessionToken := "accesstoken", Expiration := "2024-01-01T01:00:00Z",
    credentialsType := "aws" }

/-- The account of the tests. -/
def sampleAccount : Account := { ID := "1234", Name := "account", Alias := "account" }

/-- Midnight UTC on 1 January 2024, one hour before `sampleCredentials` expire. -/
def sampleNow : Time := 1704067200000000000

/-- One minute, in nanoseconds. -/
def minute : Duration := 60000000000

/-- The record of the `WriteFormat` tests; its cloud type is left unset. -/
def testCredentials : CloudCredentials :=
  { AccountID := "account id", AccessKeyID := "access key", SecretAccessKey := "secret key",
    SessionToken := "session token", Expiration := "expiration", credentialsType := "" }

/-- The test's record with a line feed inside its access key. -/
def lineFeedCredentials : CloudCredentials :=
  { testCredentials with AccessKeyID := "a\nb" }

/-- A response whose role attribute holds the given values and no other attribute. -/
def responseOf (values : List String) : Response :=
  { GetAttributeValues := fun attr => if attr = roleURL then values else [] }

/-- Two values encoding the role `Admin` under two different providers. -/
def twoAdmins : Response :=
  responseOf [ "arn:aws:iam::1:saml-provider/okta,arn:aws:iam::1:role/Admin",
               "arn:aws:iam::1:saml-provider/other,arn:aws:iam::1:role/Admin" ]

/-- A response whose only role is `ReadOnly`. -/
def readOnlyOnly : Response :=
  responseOf [ "arn:aws:iam::1:saml-provider/okta,arn:aws:iam::1:role/ReadOnly" ]

/-- A response with a value that has no `,` separator: its role ARN is empty. -/
def noSeparator : Response :=
  responseOf [ "arn:aws:iam::1:saml-provider/okta" ]

/-- A response with a second value whose role ARN lacks `role/`; the first value is
well formed and encodes the role `Admin`. -/
def noRoleSubstr : Response :=
  responseOf [ "arn:aws:iam::1:saml-provider/okta,arn:aws:iam::1:role/Admin",
               "arn:aws:iam::1:saml-provider/okta,arn:aws:iam::1:user/bob" ]

/-! ## Notions of the specification: role names -/

/-- What follows the first occurrence of `pat` in a text, `none` when `pat` does not occur. -/
def afterFirst (pat : List Char) : List Char → Option (List Char)
  | [] => if pat = [] then some [] else none
  | c :: cs =>
      if pat.isPrefixOf (c :: cs) then some ((c :: cs).drop pat.length)
      else afterFirst pat cs

/-- The role name the specification reads off a role ARN: the part that
follows the first occurrence of `role/`, up to the next `/` or the end. -/
def specRoleName (arn : String) : Option String :=
  (afterFirst "role/".data arn.data).map (fun rest => String.mk (rest.takeWhile (fun c => c ≠ '/')))

/-- Three roles, the second behind a path. -/
def threeRoles : Response :=
  responseOf [ "arn:aws:iam::1:saml-provider/okta,arn:aws:iam::1:role/Admin",
               "arn:aws:iam::1:role/team/Dev,arn:aws:iam::1:saml-provider/okta",
               "arn:aws:iam::1:saml-provider/okta,arn:aws:iam::1:role/ReadOnly" ]

/-! ## command/login.go -/

/-- Go `net.JoinHostPort`: a host with a colon is bracketed. -/
def JoinHostPort (host port : String) : String :=
  if host.data.contains ':' then "[" ++ host ++ "]:" ++ port
  else host ++ ":" ++ port

/-- A listening socket (`net.Listener`), known by the address it is bound to. -/
structure Listener where
  Addr : String
  deriving DecidableEq, Repr

/-- The error values `findFirstFreePort` can return. -/
inductive LoginError where
  | ErrNoPortsAvailable
  deriving DecidableEq, Repr

/-- What a call of `findFirstFreePort` leaves behind: its two results and,
in call order, the addresses it tried to listen on. -/
structure PortResult where
  sock : Option Listener
  err : Option LoginError
  attempts : List String
  deriving DecidableEq, Repr

/-- The loop of `findFirstFreePort`.  `listen addr` is the outcome of
`lc.Listen(ctx, "tcp4", addr)`: `some sock` when `err == nil`; `attempts`
holds the addresses tried so far. -/
def portLoop (listen : String → Option Listener) (broadcastAddr : String) :
    List String → List String → PortResult
  | [], attempts =>
      { sock := none, err := some .ErrNoPortsAvailable, attempts := attempts }
  | port :: ports, attempts =>
      let addr := JoinHostPort broadcastAddr port
      match listen addr with
      | some sock => { sock := some sock, err := none, attempts := attempts ++ [addr] }
      | none => portLoop listen broadcastAddr ports (attempts ++ [addr])

/-- Function `findFirstFreePort`. -/
def findFirstFreePort (listen : String → Option Listener) (broadcastAddr : String)
    (ports : List String) : PortResult :=
  portLoop listen broadcastAddr ports []

/-- An environment in which exactly the listed ports of `127.0.0.1` can be bound. -/
def freePorts (free : List String) (addr : String) : Option Listener :=
  if free.any (fun p => JoinHostPort "127.0.0.1" p = addr) then some { Addr := addr }
  else none

/-! ## cli/get.go: the time-to-live -/

/-- The time-to-live `getCmd.RunE` stores in the provider, from the value
`ttl` of the flag `--ttl` and the configured `config.TTL`: the flag value is
limited to 8 ("make sure we enforce limit"), then a flag value of 1 gives
way to a configured value other than 0. -/
def getCmdTTL (ttl configTTL : Nat) : Nat :=
  let ttl := if ttl > 8 then 8 else ttl
  let ttl := if ttl = 1 ∧ configTTL ≠ 0 then configTTL else ttl
  ttl

/-- The duration both providers request: `int64(3600 * TTL)`, computed on
64-bit unsigned numbers and read as a signed one. -/
def timeoutInSeconds (TTL : Nat) : Int :=
  let u : Nat := (3600 * TTL) % 2 ^ 64
  if u < 2 ^ 63 then (u : Int) else (u : Int) - 2 ^ 64

/-! ## Concrete inputs: role resolution -/

/-- A response whose only value names the role `Admin` and, after the
comma, an empty provider. -/
def emptyProvider : Response :=
  responseOf [ "arn:aws:iam::1:role/Admin," ]

/-! ## cli/get.go: the two providers -/

/-- The record `SAMLResponse` handed to the exchange; the code reads its field `original`. -/
structure SAMLResponse where
  original : String
  deriving DecidableEq, Repr

/-- The record `OktaAWSSAMLProvider`, without its token set and HTTP client. -/
structure OktaAWSSAMLProvider where
  OIDCDomain : String
  ClientID : String
  AccountID : String
  TTL : Nat
  Region : String
  deriving DecidableEq, Repr

/-- The record `OktaTencentCloudSAMLProvider`. -/
structure OktaTencentCloudSAMLProvider where
  Href : String
  Region : String
  TTL : Nat
  deriving DecidableEq, Repr

/-- The request `sts.AssumeRoleWithSAMLInput` the AWS provider builds. -/
structure AssumeRoleWithSAMLInput where
  DurationSeconds : Int
  PrincipalArn : String
  RoleArn : String
  SAMLAssertion : String
  deriving DecidableEq, Repr

/-- The credentials of a successful AWS answer (`resp.Credentials`). -/
structure AwsStsCredentials where
  AccessKeyId : String
  SecretAccessKey : String
  SessionToken : String
  Expiration : Time
  deriving DecidableEq, Repr

/-- The request the Tencent provider builds. -/
structure TencentAssumeRoleWithSAMLRequest where
  RoleSessionName : String
  DurationSeconds : Nat
  PrincipalArn : String
  RoleArn : String
  SAMLAssertion : String
  deriving DecidableEq, Repr

/-- A successful Tencent answer (`resp.Response`): its credentials and expiration. -/
structure TencentStsResponse where
  TmpSecretId : String
  TmpSecretKey : String
  Token : String
  Expiration : String
  deriving DecidableEq, Repr

/-- `OktaAWSSAMLProvider.ExchangeAssertionForCredentials`.  `assumeRole` is
the call `AssumeRoleWithSAMLWithContext` of the STS client of the provider's
region, `format` is `Time.Format(time.RFC3339)`; an error result stands for
the return of `CloudCredentials{}` with that error. -/
def OktaAWSSAMLProvider.ExchangeAssertionForCredentials (cloudAws : String)
    (format : Time → String)
    (assumeRole : String → AssumeRoleWithSAMLInput → Except String AwsStsCredentials)
    (r : OktaAWSSAMLProvider) (response : SAMLResponse) (rp : RoleProviderPair) :
    Except String CloudCredentials :=
  match assumeRole r.Region
      { DurationSeconds := timeoutInSeconds r.TTL, PrincipalArn := rp.ProviderARN,
        RoleArn := rp.RoleARN, SAMLAssertion := response.original } with
  | .error err => .error err
  | .ok credentials =>
      .ok { AccessKeyID := credentials.AccessKeyId,
            Expiration := format credentials.Expiration,
            SecretAccessKey := credentials.SecretAccessKey,
            SessionToken := credentials.SessionToken,
            credentialsType := cloudAws,
            AccountID := "" }

/-- `OktaTencentCloudSAMLProvider.ExchangeAssertionForCredentials`.
`assumeRole` is the call `AssumeRoleWithSAMLWithContext` of the Tencent STS
client of the provider's region. -/
def OktaTencentCloudSAMLProvider.ExchangeAssertionForCredentials
    (assumeRole : String → TencentAssumeRoleWithSAMLRequest → Except String TencentStsResponse)
    (p : OktaTencentCloudSAMLProvider) (response : SAMLResponse) (rp : RoleProviderPair) :
    Except String CloudCredentials :=
  match assumeRole p.Region
      { RoleSessionName := "riot-keyConjurer-" ++ rp.RoleARN,
        DurationSeconds := (timeoutInSeconds p.TTL % 2 ^ 64).toNat,
        PrincipalArn := rp.ProviderARN, RoleArn := rp.RoleARN,
        SAMLAssertion := response.original } with
  | .error err => .error err
  | .ok resp =>
      .ok { AccessKeyID := resp.TmpSecretId,
            SecretAccessKey := resp.TmpSecretKey,
            SessionToken := resp.Token,
            Expiration := resp.Expiration,
            AccountID := "",
            credentialsType := "" }

/-- `LoadAWSCredentialsFromEnvironment`, with `os.Getenv` as `getenv`. -/
def LoadAWSCredentialsFromEnvironment (cloudAws : String) (getenv : String → String) :
    CloudCredentials :=
  { AccessKeyID := getenv "AWS_ACCESS_KEY_ID",
    SecretAccessKey := getenv "AWS_SECRET_ACCESS_KEY",
    SessionToken := getenv "AWS_SESSION_TOKEN",
    AccountID := getenv "AWSKEY_ACCOUNT",
    Expiration := getenv "AWSKEY_EXPIRATION",
    credentialsType := cloudAws }

/-- `LoadTencentCredentialsFromEnvironment`, with `os.Getenv` as `getenv`. -/
def LoadTencentCredentialsFromEnvironment (cloudTencent : String) (getenv : String → String) :
    CloudCredentials :=
  { AccessKeyID := getenv "TENCENTCLOUD_SECRET_ID",
    SecretAccessKey := getenv "TENCENTCLOUD_SECRET_KEY",
    SessionToken := getenv "TENCENTCLOUD_TOKEN",
    AccountID := getenv "TENCENTKEY_ACCOUNT",
    Expiration := getenv "TENCENTKEY_EXPIRATION",
    credentialsType := cloudTencent }

/-! ## api/authenticators/onelogin_duo/authenticator.go -/

/-- A device of the state-token answer (`onelogin.Device`), with the fields the code reads. -/
structure Device where
  Id : Int
  DeviceType : String
  ApiHostName : String
  SignatureRequest : String
  deriving DecidableEq, Repr

/-- The answer of `GetStateToken`, with the fields the code reads. -/
structure StateTokenResponse where
  StateToken : String
  CallbackUrl : String
  Devices : List Device
  deriving DecidableEq, Repr

/-- The device loop of `Authorize`; `device` is the variable `device`. -/
def selectDevice : List Device → Device → Device
  | [], device => device
  | aDevice :: rest, device =>
      selectDevice rest (if aDevice.DeviceType = "Duo Duo Security" then aDevice else device)

/-- The arguments `Authorize` passes to `ola.MFA.Do`, in order: the
transaction signature, the state token, the callback URL and the API host
of the selected device.  It panics when the signature request of the
selected device has no `:`. -/
def mfaArguments (stateTokenResponse : StateTokenResponse) :
    Except RuntimeError (Device × List String) := do
  let device := selectDevice stateTokenResponse.Devices
    { Id := 0, DeviceType := "", ApiHostName := "", SignatureRequest := "" }
  let signatures := Split device.SignatureRequest ":"
  let txSignature ← indexAt signatures 0
  let _appSignature ← indexAt signatures 1
  pure (device, [txSignature, stateTokenResponse.StateToken,
    stateTokenResponse.CallbackUrl, device.ApiHostName])

/-! ## The interface `shellWriter` over any writer -/

/-- The two methods of the interface `shellWriter`, for a writer whose
state is of type `σ`. -/
structure shellWriterMethods (σ : Type) where
  WriteVariable : σ → String → String → σ
  WriteAlias : σ → String → String → σ

/-- The methods of the three writers of the code. -/
def shellWriter.methods (isPrintTable : Char → Bool) (writer : shellWriter) :
    shellWriterMethods String :=
  { WriteVariable := writer.WriteVariable isPrintTable, WriteAlias := writer.WriteAlias }

/-- The AWS case of the second switch of `WriteFormat`, for any writer. -/
def writeAwsWith {σ : Type} (writer : shellWriterMethods σ) (c : CloudCredentials) (w : σ) : σ :=
  let w := writer.WriteVariable w "AWS_ACCESS_KEY_ID" c.AccessKeyID
  let w := writer.WriteVariable w "AWS_SECRET_ACCESS_KEY" c.SecretAccessKey
  let w := writer.WriteVariable w "AWS_SESSION_TOKEN" c.SessionToken
  let w := writer.WriteAlias w "AWS_SECURITY_TOKEN" "AWS_SESSION_TOKEN"
  let w := writer.WriteAlias w "TF_VAR_access_key" "AWS_ACCESS_KEY_ID"
  let w := writer.WriteAlias w "TF_VAR_secret_key" "AWS_SECRET_ACCESS_KEY"
  let w := writer.WriteAlias w "TF_VAR_token" "AWS_SESSION_TOKEN"
  let w := writer.WriteVariable w "AWSKEY_EXPIRATION" c.Expiration
  writer.WriteVariable w "AWSKEY_ACCOUNT" c.AccountID

/-- The Tencent case of the second switch of `WriteFormat`, for any writer. -/
def writeTencentWith {σ : Type} (writer : shellWriterMethods σ) (c : CloudCredentials)
    (w : σ) : σ :=
  let w := writer.WriteVariable w "TENCENTCLOUD_SECRET_ID" c.AccessKeyID
  let w := writer.WriteVariable w "TENCENTCLOUD_SECRET_KEY" c.SecretAccessKey
  let w := writer.WriteVariable w "TENCENTCLOUD_TOKEN" c.SessionToken
  let w := writer.WriteAlias w "TENCENT_SECURITY_TOKEN" "TENCENTCLOUD_TOKEN"
  let w := writer.WriteAlias w "TF_VAR_access_key" "TENCENTCLOUD_SECRET_ID"
  let w := writer.WriteAlias w "TF_VAR_secret_key" "TENCENTCLOUD_SECRET_KEY"
  let w := writer.WriteAlias w "TF_VAR_token" "TENCENTCLOUD_TOKEN"
  let w := writer.WriteVariable w "TENCENTKEY_EXPIRATION" c.Expiration
  writer.WriteVariable w "TENCENTKEY_ACCOUNT" c.AccountID

/-- The second switch of `WriteFormat`, for any writer. -/
def writeCloudWith {σ : Type} (cloudAws cloudTencent : String) (writer : shellWriterMethods σ)
    (c : CloudCredentials) (w : σ) : σ :=
  if c.credentialsType = cloudAws then writeAwsWith writer c w
  else if c.credentialsType = cloudTencent then writeTencentWith writer c w
  else writeAwsWith writer c w

/-- The writer `WriteFormat` selects for a format. -/
def selectWriter (inferred format : ShellType) : shellWriter :=
  let format := if format = shellTypeInfer then inferred else format
  if format = shellTypeBash then shellWriter.bashWriter
  else if format = shellTypePowershell then shellWriter.powershellWriter
  else if format = shellTypeBasic then shellWriter.basicWriter
  else shellWriter.bashWriter

/-- A writer that keeps, in call order, the key and the value of every
`WriteVariable` call and ignores the aliases. -/
def variableRecorder : shellWriterMethods (List (String × String)) :=
  { WriteVariable := fun w key value => w ++ [(key, value)],
    WriteAlias := fun w _ _ => w }

/-- The variables `WriteFormat` emits through `WriteVariable` for a record:
their keys and values, in order. -/
def emittedVariables (cloudAws cloudTencent : String) (c : CloudCredentials) :
    List (String × String) :=
  writeCloudWith cloudAws cloudTencent variableRecorder c []

/-! ## Concrete inputs: providers, devices, environments -/

/-- An AWS provider for the account `1234`. -/
def sampleAwsProvider : OktaAWSSAMLProvider :=
  { OIDCDomain := "example.okta.com", ClientID := "client", AccountID := "1234", TTL := 1,
    Region := "us-west-2" }

/-- A Tencent provider. -/
def sampleTencentProvider : OktaTencentCloudSAMLProvider :=
  { Href := "https://example.okta.com/app", Region := "us-west-2", TTL := 1 }

/-- A role and its provider. -/
def samplePair : RoleProviderPair :=
  { RoleARN := "arn:aws:iam::1:role/Admin", ProviderARN := "arn:aws:iam::1:saml-provider/okta" }

/-- An AWS STS client that answers every request with the same credentials. -/
def awsAnswers (_region : String) (_input : AssumeRoleWithSAMLInput) :
    Except String AwsStsCredentials :=
  .ok { AccessKeyId := "ak", SecretAccessKey := "sk", SessionToken := "tok",
        Expiration := 1704070800000000000 }

/-- A Tencent STS client that answers every request with the same credentials. -/
def tencentAnswers (_region : String) (_req : TencentAssumeRoleWithSAMLRequest) :
    Except String TencentStsResponse :=
  .ok { TmpSecretId := "ak", TmpSecretKey := "sk", Token := "tok",
        Expiration := "2024-01-01T01:00:00Z" }

/-- A formatter that knows the one instant `awsAnswers` uses. -/
def sampleFormat (_t : Time) : String := "2024-01-01T01:00:00Z"

/-- A device list with two Duo devices around a device of another type. -/
def twoDuoDevices : StateTokenResponse :=
  { StateToken := "state", CallbackUrl := "https://callback",
    Devices :=
      [ { Id := 1, DeviceType := "Duo Duo Security", ApiHostName := "api-first.duo.com",
          SignatureRequest := "TX|first:APP|first" },
        { Id := 2, DeviceType := "OneLogin Protect", ApiHostName := "",
          SignatureRequest := "" },
        { Id := 3, DeviceType := "Duo Duo Security", ApiHostName := "api-second.duo.com",
          SignatureRequest := "TX|second:APP|second" } ] }

/-- An environment holding the listed variables; any other variable is unset. -/
def envOf (vars : List (String × String)) (key : String) : String :=
  match vars.find? (fun kv => kv.1 = key) with
  | some kv => kv.2
  | none => ""

/-- The test's record with the Tencent tag. -/
def tencentCredentials : CloudCredentials :=
  { testCredentials with credentialsType := "tencent" }

set_option maxRecDepth 8000

/-! ## Properties of `ValidUntil` -/

/-- A lookahead is shorter than the time left exactly when the expiry is after `now + dur`. -/
theorem lookahead_lt_iff (now E dur : Int) : dur < E - now ↔ now + dur < E := by
  omega

/-- C1.  With the clock reading `now` as an input: when the record's
AccountID equals the account's ID and its Expiration parses as the instant
`E`, `ValidUntil` returns true for every lookahead `dur < E - now`, false for
every `dur ≥ E - now`, and so is true exactly when `E` is strictly after
`now + dur`. -/
theorem ValidUntil_window (parse : String → Option Time) (now : Time)
    (c : CloudCredentials) (account : Account) (E : Time) (dur : Duration)
    (hid : c.AccountID = account.ID) (hparse : parse c.Expiration = some E) :
    (dur < E - now → ValidUntil parse now (some c) (some account) dur = true)
    ∧ (E - now ≤ dur → ValidUntil parse now (some c) (some account) dur = false)
    ∧ (ValidUntil parse now (some c) (some account) dur = true ↔ now + dur < E) := by
  have h : ValidUntil parse now (some c) (some account) dur = decide (now + dur < E) := by
    simp [ValidUntil, hid, hparse, Time.After, Time.Add]
  rw [h]
  refine ⟨fun hlt => ?_, fun hge => ?_, ?_⟩
  · exact decide_eq_true ((lookahead_lt_iff now E dur).1 hlt)
  · exact decide_eq_false (fun h' => absurd ((lookahead_lt_iff now E dur).2 h') (not_lt.mpr hge))
  · simp

/-- C1 at the test's inputs: an hour before expiry, a lookahead of 58
minutes is inside the window and a lookahead of 60 minutes is not. -/
theorem ValidUntil_window_witness :
    sampleCredentials.AccountID = sampleAccount.ID
    ∧ parseRFC3339 sampleCredentials.Expiration = some (sampleNow + 60 * minute)
    ∧ ValidUntil parseRFC3339 sampleNow (some sampleCredentials) (some sampleAccount)
        (58 * minute) = true
    ∧ ValidUntil parseRFC3339 sampleNow (some sampleCredentials) (some sampleAccount)
        (60 * minute) = false :=
  ⟨by decide, by decide,
    (ValidUntil_window parseRFC3339 sampleNow sampleCredentials sampleAccount
      (sampleNow + 60 * minute) (58 * minute) (by decide) (by decide)).1 (by decide),
    (ValidUntil_window parseRFC3339 sampleNow sampleCredentials sampleAccount
      (sampleNow + 60 * minute) (60 * minute) (by decide) (by decide)).2.1 (by decide)⟩

/-- C2.  When the record's AccountID differs from the target account's ID,
`ValidUntil` returns false for every lookahead, every Expiration string and
every clock reading. -/
theorem ValidUntil_account_mismatch (parse : String → Option Time) (now : Time)
    (c : CloudCredentials) (account : Account) (dur : Duration)
    (hid : c.AccountID ≠ account.ID) :
    ValidUntil parse now (some c) (some account) dur = false := by
  simp [ValidUntil, hid]

/-- C2 at the test's input: the account ID is blanked and the expiration is
in the year 9999. -/
theorem ValidUntil_account_mismatch_witness :
    parseRFC3339 "9999-12-31T23:59:59Z" = some 253402300799000000000
    ∧ ValidUntil parseRFC3339 sampleNow
        (some { sampleCredentials with Expiration := "9999-12-31T23:59:59Z" })
        (some { sampleAccount with ID := "" }) 0 = false :=
  ⟨by decide,
    ValidUntil_account_mismatch parseRFC3339 sampleNow
      { sampleCredentials with Expiration := "9999-12-31T23:59:59Z" }
      { sampleAccount with ID := "" } 0 (by decide)⟩

/-- C3.  When the Expiration string does not parse, `ValidUntil` returns
false for every account (nil included) and lookahead; it also returns false
when the credentials pointer or the account pointer is nil.  It is a total
function into the booleans: no input makes it fail. -/
theorem ValidUntil_unparsable (parse : String → Option Time) (now : Time)
    (c : CloudCredentials) (hparse : parse c.Expiration = none) :
    (∀ (account : Option Account) (dur : Duration),
        ValidUntil parse now (some c) account dur = false)
    ∧ (∀ (account : Option Account) (dur : Duration),
        ValidUntil parse now none account dur = false)
    ∧ (∀ (c' : Option CloudCredentials) (dur : Duration),
        ValidUntil parse now c' none dur = false) := by
  refine ⟨fun account dur => ?_, fun account dur => ?_, fun c' dur => ?_⟩
  · cases account with
    | none => rfl
    | some a => simp [ValidUntil, hparse]
  · cases account <;> rfl
  · cases c' <;> rfl

/-- C3 at the spec's two examples of a malformed expiration. -/
theorem ValidUntil_unparsable_witness :
    parseRFC3339 "definitely not a timestamp" = none
    ∧ parseRFC3339 "" = none
    ∧ ValidUntil parseRFC3339 sampleNow
        (some { sampleCredentials with Expiration := "definitely not a timestamp" })
        (some sampleAccount) 0 = false
    ∧ ValidUntil parseRFC3339 sampleNow
        (some { sampleCredentials with Expiration := "" }) (some sampleAccount) 0 = false :=
  ⟨by decide, by decide,
    (ValidUntil_unparsable parseRFC3339 sampleNow
      { sampleCredentials with Expiration := "definitely not a timestamp" }
      (by decide)).1 (some sampleAccount) 0,
    (ValidUntil_unparsable parseRFC3339 sampleNow
      { sampleCredentials with Expiration := "" } (by decide)).1 (some sampleAccount) 0⟩

/-! ## Properties of `WriteFormat` -/

/-- No hexadecimal digit is a line feed. -/
theorem hexDigit_ne_newline (n : Nat) : hexDigit n ≠ '\n' := by
  have h : n % 16 < 16 := Nat.mod_lt _ (by decide)
  unfold hexDigit
  generalize n % 16 = k at h
  interval_cases k <;> decide

/-- A line feed is not printable. -/
theorem IsPrint_newline (t : Char → Bool) : IsPrint t '\n' = false := by
  rfl

/-- The escaped form of a rune never holds a line feed. -/
theorem escapeRune_no_newline (t : Char → Bool) (r : Char) : '\n' ∉ escapeRune t r := by
  have hx := hexDigit_ne_newline
  by_cases h1 : r = '"' ∨ r = '\\'
  · rw [escapeRune, if_pos h1]
    rcases h1 with h | h <;> subst h <;> decide
  · by_cases h2 : IsPrint t r = true
    · rw [escapeRune, if_neg h1, if_pos h2]
      intro hmem
      rw [List.mem_singleton] at hmem
      subst hmem
      rw [IsPrint_newline] at h2
      exact Bool.noConfusion h2
    · rw [escapeRune, if_neg h1, if_neg h2]
      repeat' split
      all_goals
        simp only [List.mem_cons, List.mem_singleton, List.not_mem_nil, or_false, not_or]
      all_goals
        first
          | exact ⟨by decide, by decide⟩
          | exact ⟨by decide, by decide, (hx _).symm, (hx _).symm⟩
          | exact ⟨by decide, by decide, (hx _).symm, (hx _).symm, (hx _).symm, (hx _).symm⟩
          | exact ⟨by decide, by decide, (hx _).symm, (hx _).symm, (hx _).symm, (hx _).symm,
              (hx _).symm, (hx _).symm, (hx _).symm, (hx _).symm⟩

/-- What `%q` prints is free of line feeds, whatever the value. -/
theorem quote_no_newline (t : Char → Bool) (s : String) : '\n' ∉ (quote t s).data := by
  unfold quote
  simp only [List.mem_cons, List.mem_append, List.mem_flatMap, List.mem_singleton,
    List.not_mem_nil, or_false, not_or, not_exists, not_and]
  refine ⟨by decide, fun r _ => escapeRune_no_newline t r, by decide⟩

/-- For a value made of printable characters other than the double quote and
the backslash, `%q` prints the value between two double quotes. -/
theorem quote_plain (t : Char → Bool) (v : String)
    (h : ∀ ch ∈ v.data, ch ≠ '"' ∧ ch ≠ '\\' ∧ IsPrint t ch = true) :
    quote t v = "\"" ++ v ++ "\"" := by
  have key : ∀ l : List Char, (∀ ch ∈ l, ch ≠ '"' ∧ ch ≠ '\\' ∧ IsPrint t ch = true) →
      l.flatMap (escapeRune t) = l := by
    intro l
    induction l with
    | nil => intro _; rfl
    | cons a l ih =>
      intro hl
      have ha := hl a (List.mem_cons_self _ _)
      have hl' := ih (fun ch hch => hl ch (List.mem_cons_of_mem _ hch))
      simp only [List.flatMap_cons, hl']
      simp [escapeRune, ha.1, ha.2.1, ha.2.2]
  apply String.ext
  simp [quote, key v.data h]

/-- A record tagged AWS or left untagged takes the AWS case of `WriteFormat`. -/
theorem WriteFormat_aws_case (cloudAws cloudTencent : String) (t : Char → Bool)
    (inferred : ShellType) (c : CloudCredentials) (w : String) (format : ShellType)
    (hfmt : format ≠ shellTypeInfer)
    (hty : c.credentialsType = cloudAws ∨ c.credentialsType = "")
    (hT : cloudTencent ≠ "") :
    WriteFormat cloudAws cloudTencent t inferred c w format
      = writeAws t
          (if format = shellTypeBash then shellWriter.bashWriter
           else if format = shellTypePowershell then shellWriter.powershellWriter
           else if format = shellTypeBasic then shellWriter.basicWriter
           else shellWriter.bashWriter) c w := by
  unfold WriteFormat
  simp only [if_neg hfmt]
  rcases hty with h | h
  · rw [if_pos h]
  · by_cases h' : c.credentialsType = cloudAws
    · rw [if_pos h']
    · rw [if_neg h', if_neg (by rw [h]; exact fun e => hT e.symm)]

/-- C4.  For a record tagged AWS or untagged, `WriteFormat` with the bash
dialect appends to the writer exactly the nine lines
`export AWS_ACCESS_KEY_ID=<q(AccessKeyID)>`, ..., `export AWSKEY_ACCOUNT=<q(AccountID)>`
in the specified order, each ended by one line feed and none holding a
further one; `q` is Go `%q`, which for a value of printable characters other
than the double quote and the backslash is the value between two double quotes. -/
theorem WriteFormat_bash_aws (cloudAws cloudTencent : String) (t : Char → Bool)
    (inferred : ShellType) (c : CloudCredentials) (w : String)
    (hty : c.credentialsType = cloudAws ∨ c.credentialsType = "")
    (hT : cloudTencent ≠ "") :
    WriteFormat cloudAws cloudTencent t inferred c w shellTypeBash
        = w ++ unlines (specBashLines (quote t) c)
    ∧ (specBashLines (quote t) c).length = 9
    ∧ (∀ l ∈ specBashLines (quote t) c, '\n' ∉ l.data)
    ∧ (∀ v : String, (∀ ch ∈ v.data, ch ≠ '"' ∧ ch ≠ '\\' ∧ IsPrint t ch = true) →
        quote t v = "\"" ++ v ++ "\"") := by
  refine ⟨?_, rfl, ?_, quote_plain t⟩
  · rw [WriteFormat_aws_case cloudAws cloudTencent t inferred c w shellTypeBash
      (by decide) hty hT]
    simp [writeAws, shellWriter.WriteVariable, shellWriter.WriteAlias, unlines,
      specBashLines, String.join, String.append_assoc]
  · intro l hl
    have hq := quote_no_newline t
    simp only [specBashLines, List.mem_cons, List.mem_singleton, List.not_mem_nil,
      or_false] at hl
    rcases hl with h | h | h | h | h | h | h | h | h <;> subst h <;>
      simp only [String.data_append, List.mem_append, not_or] <;>
      first
        | decide
        | exact ⟨by decide, hq _⟩

/-- C4 at the input of `Test_CloudCredentials_WriteFormat_AWS_Bash`: the
output is the test's expected text. -/
theorem WriteFormat_bash_aws_witness :
    (testCredentials.credentialsType = "aws" ∨ testCredentials.credentialsType = "")
    ∧ "tencent" ≠ ""
    ∧ WriteFormat "aws" "tencent" (fun _ => false) "bash" testCredentials "" shellTypeBash
        = "export AWS_ACCESS_KEY_ID=\"access key\"\nexport AWS_SECRET_ACCESS_KEY=\"secret key\"\nexport AWS_SESSION_TOKEN=\"session token\"\nexport AWS_SECURITY_TOKEN=$AWS_SESSION_TOKEN\nexport TF_VAR_access_key=$AWS_ACCESS_KEY_ID\nexport TF_VAR_secret_key=$AWS_SECRET_ACCESS_KEY\nexport TF_VAR_token=$AWS_SESSION_TOKEN\nexport AWSKEY_EXPIRATION=\"expiration\"\nexport AWSKEY_ACCOUNT=\"account id\"\n" :=
  ⟨Or.inr rfl, by decide,
    (WriteFormat_bash_aws "aws" "tencent" (fun _ => false) "bash" testCredentials ""
      (Or.inr rfl) (by decide)).1.trans (by decide)⟩

/-- C5.  For a record tagged AWS or untagged, `WriteFormat` with the
PowerShell dialect appends the same nine entries in the same order, a
variable as `$Env:<KEY> = <q(value)>` and an alias as `$Env:<KEY> = $Env:<NAME>`,
each ended by one line feed and none holding a further one; the
double-quoting `q` is Go `%q`, which for a value of printable characters
other than the double quote and the backslash is the value between two
double quotes. -/
theorem WriteFormat_powershell_aws (cloudAws cloudTencent : String) (t : Char → Bool)
    (inferred : ShellType) (c : CloudCredentials) (w : String)
    (hty : c.credentialsType = cloudAws ∨ c.credentialsType = "")
    (hT : cloudTencent ≠ "") :
    WriteFormat cloudAws cloudTencent t inferred c w shellTypePowershell
        = w ++ unlines (specPowershellLines (quote t) c)
    ∧ (specPowershellLines (quote t) c).length = 9
    ∧ (∀ l ∈ specPowershellLines (quote t) c, '\n' ∉ l.data)
    ∧ (∀ v : String, (∀ ch ∈ v.data, ch ≠ '"' ∧ ch ≠ '\\' ∧ IsPrint t ch = true) →
        quote t v = "\"" ++ v ++ "\"") := by
  refine ⟨?_, rfl, ?_, quote_plain t⟩
  · rw [WriteFormat_aws_case cloudAws cloudTencent t inferred c w shellTypePowershell
      (by decide) hty hT]
    rw [if_neg (by decide), if_pos rfl]
    simp [writeAws, shellWriter.WriteVariable, shellWriter.WriteAlias, unlines,
      specPowershellLines, String.join, String.append_assoc]
  · intro l hl
    have hq := quote_no_newline t
    simp only [specPowershellLines, List.mem_cons, List.mem_singleton, List.not_mem_nil,
      or_false] at hl
    rcases hl with h | h | h | h | h | h | h | h | h <;> subst h <;>
      simp only [String.data_append, List.mem_append, not_or] <;>
      first
        | decide
        | exact ⟨by decide, hq _⟩

/-- C5 at the input of `Test_CloudCredentials_WriteFormat_AWS_Powershell`. -/
theorem WriteFormat_powershell_aws_witness :
    (testCredentials.credentialsType = "aws" ∨ testCredentials.credentialsType = "")
    ∧ "tencent" ≠ ""
    ∧ WriteFormat "aws" "tencent" (fun _ => false) "bash" testCredentials ""
        shellTypePowershell
        = "$Env:AWS_ACCESS_KEY_ID = \"access key\"\n$Env:AWS_SECRET_ACCESS_KEY = \"secret key\"\n$Env:AWS_SESSION_TOKEN = \"session token\"\n$Env:AWS_SECURITY_TOKEN = $Env:AWS_SESSION_TOKEN\n$Env:TF_VAR_access_key = $Env:AWS_ACCESS_KEY_ID\n$Env:TF_VAR_secret_key = $Env:AWS_SECRET_ACCESS_KEY\n$Env:TF_VAR_token = $Env:AWS_SESSION_TOKEN\n$Env:AWSKEY_EXPIRATION = \"expiration\"\n$Env:AWSKEY_ACCOUNT = \"account id\"\n" :=
  ⟨Or.inr rfl, by decide,
    (WriteFormat_powershell_aws "aws" "tencent" (fun _ => false) "bash" testCredentials ""
      (Or.inr rfl) (by decide)).1.trans (by decide)⟩

/-- C6 fails on the code as stated: the entries are not always one per
line.  With an access key made of `a`, a line feed and `b`, the basic dialect
copies the line feed, so the nine entries take ten lines: the text holds
ten line feeds and its first entry is not free of them. -/
theorem WriteFormat_basic_entry_spans_lines :
    WriteFormat "aws" "tencent" (fun _ => false) "bash" lineFeedCredentials "" shellTypeBasic
        = "SET AWS_ACCESS_KEY_ID=a\nb\nSET AWS_SECRET_ACCESS_KEY=secret key\nSET AWS_SESSION_TOKEN=session token\nSET AWS_SECURITY_TOKEN=%AWS_SESSION_TOKEN%\nSET TF_VAR_access_key=%AWS_ACCESS_KEY_ID%\nSET TF_VAR_secret_key=%AWS_SECRET_ACCESS_KEY%\nSET TF_VAR_token=%AWS_SESSION_TOKEN%\nSET AWSKEY_EXPIRATION=expiration\nSET AWSKEY_ACCOUNT=account id\n"
    ∧ (WriteFormat "aws" "tencent" (fun _ => false) "bash" lineFeedCredentials ""
        shellTypeBasic).data.count '\n' = 10
    ∧ ¬ (∀ l ∈ specBasicLines lineFeedCredentials, '\n' ∉ l.data) := by
  refine ⟨by decide, by decide, ?_⟩
  intro h
  exact h ("SET AWS_ACCESS_KEY_ID=" ++ lineFeedCredentials.AccessKeyID)
    (List.mem_cons_self _ _) (by decide)

/-- C6, amended.  For a record tagged AWS or untagged, `WriteFormat` with
the basic dialect appends the same nine entries in the same order, a
variable as `SET <KEY>=<value>` with the value copied verbatim, unquoted
(spaces and line feeds included), and an alias as `SET <KEY>=%<NAME>%`, each
entry ended by a line feed; the entries are one per line exactly when no
value holds a line feed. -/
theorem WriteFormat_basic_aws (cloudAws cloudTencent : String) (t : Char → Bool)
    (inferred : ShellType) (c : CloudCredentials) (w : String)
    (hty : c.credentialsType = cloudAws ∨ c.credentialsType = "")
    (hT : cloudTencent ≠ "") :
    WriteFormat cloudAws cloudTencent t inferred c w shellTypeBasic
        = w ++ unlines (specBasicLines c)
    ∧ (specBasicLines c).length = 9
    ∧ ((∀ l ∈ specBasicLines c, '\n' ∉ l.data) ↔
        ('\n' ∉ c.AccessKeyID.data ∧ '\n' ∉ c.SecretAccessKey.data
          ∧ '\n' ∉ c.SessionToken.data ∧ '\n' ∉ c.Expiration.data
          ∧ '\n' ∉ c.AccountID.data)) := by
  refine ⟨?_, rfl, ⟨fun hall => ?_, ?_⟩⟩
  · rw [WriteFormat_aws_case cloudAws cloudTencent t inferred c w shellTypeBasic
      (by decide) hty hT]
    rw [if_neg (by decide), if_neg (by decide), if_pos rfl]
    simp [writeAws, shellWriter.WriteVariable, shellWriter.WriteAlias, unlines,
      specBasicLines, String.join, String.append_assoc]
  · have hval : ∀ (pre v : String), pre ++ v ∈ specBasicLines c → '\n' ∉ v.data := by
      intro pre v hmem hv
      exact hall (pre ++ v) hmem (by
        rw [String.data_append]
        exact List.mem_append_right _ hv)
    refine ⟨hval "SET AWS_ACCESS_KEY_ID=" _ ?_, hval "SET AWS_SECRET_ACCESS_KEY=" _ ?_,
      hval "SET AWS_SESSION_TOKEN=" _ ?_, hval "SET AWSKEY_EXPIRATION=" _ ?_,
      hval "SET AWSKEY_ACCOUNT=" _ ?_⟩ <;>
      simp [specBasicLines]
  · rintro ⟨h1, h2, h3, h4, h5⟩ l hl
    simp only [specBasicLines, List.mem_cons, List.mem_singleton, List.not_mem_nil,
      or_false] at hl
    rcases hl with h | h | h | h | h | h | h | h | h <;> subst h <;>
      simp only [String.data_append, List.mem_append, not_or] <;>
      first
        | decide
        | exact ⟨by decide, h1⟩
        | exact ⟨by decide, h2⟩
        | exact ⟨by decide, h3⟩
        | exact ⟨by decide, h4⟩
        | exact ⟨by decide, h5⟩

/-- C6, amended, at the input of `Test_CloudCredentials_WriteFormat_AWS_Basic`:
the values keep their spaces and get no quotes, and as none of them holds a
line feed the nine entries are one per line. -/
theorem WriteFormat_basic_aws_witness :
    (testCredentials.credentialsType = "aws" ∨ testCredentials.credentialsType = "")
    ∧ "tencent" ≠ ""
    ∧ WriteFormat "aws" "tencent" (fun _ => false) "bash" testCredentials "" shellTypeBasic
        = "SET AWS_ACCESS_KEY_ID=access key\nSET AWS_SECRET_ACCESS_KEY=secret key\nSET AWS_SESSION_TOKEN=session token\nSET AWS_SECURITY_TOKEN=%AWS_SESSION_TOKEN%\nSET TF_VAR_access_key=%AWS_ACCESS_KEY_ID%\nSET TF_VAR_secret_key=%AWS_SECRET_ACCESS_KEY%\nSET TF_VAR_token=%AWS_SESSION_TOKEN%\nSET AWSKEY_EXPIRATION=expiration\nSET AWSKEY_ACCOUNT=account id\n"
    ∧ (∀ l ∈ specBasicLines testCredentials, '\n' ∉ l.data) :=
  ⟨Or.inr rfl, by decide,
    (WriteFormat_basic_aws "aws" "tencent" (fun _ => false) "bash" testCredentials ""
      (Or.inr rfl) (by decide)).1.trans (by decide),
    (WriteFormat_basic_aws "aws" "tencent" (fun _ => false) "bash" testCredentials ""
      (Or.inr rfl) (by decide)).2.2.mpr (by decide)⟩

/-! ## Properties of `getARN` -/

/-- A one-character separator is a prefix exactly of the texts starting with it. -/
theorem isPrefixOf_single (ch c : Char) (cs : List Char) :
    [ch].isPrefixOf (c :: cs) = decide (ch = c) := by
  by_cases h : ch = c <;> simp [List.isPrefixOf, h]

/-- Splitting a text free of the separator character yields the one piece. -/
theorem splitGo_single_free (ch : Char) (a : List Char) (h : ch ∉ a) (cur : List Char) :
    splitGo [ch] a 0 cur = [cur.reverse ++ a] := by
  induction a generalizing cur with
  | nil => simp [splitGo]
  | cons c cs ih =>
    have hc : ch ≠ c := fun e => h (e ▸ List.mem_cons_self _ _)
    have hcs : ch ∉ cs := fun e => h (List.mem_cons_of_mem _ e)
    rw [splitGo, isPrefixOf_single, decide_eq_false hc]
    simp [ih hcs]

/-- Splitting cuts at the first separator character. -/
theorem splitGo_single_cut (ch : Char) (a rest : List Char) (h : ch ∉ a) (cur : List Char) :
    splitGo [ch] (a ++ ch :: rest) 0 cur = (cur.reverse ++ a) :: splitGo [ch] rest 0 [] := by
  induction a generalizing cur with
  | nil =>
    rw [List.nil_append, splitGo, isPrefixOf_single, decide_eq_true rfl]
    simp
  | cons c cs ih =>
    have hc : ch ≠ c := fun e => h (e ▸ List.mem_cons_self _ _)
    have hcs : ch ∉ cs := fun e => h (List.mem_cons_of_mem _ e)
    rw [List.cons_append, splitGo, isPrefixOf_single, decide_eq_false hc]
    simp [ih hcs]

/-- `strings.Split(a + "," + b, ",")` is `[a, b]` when neither part holds a comma. -/
theorem Split_comma_pair (a b : String) (ha : ',' ∉ a.data) (hb : ',' ∉ b.data) :
    Split (a ++ "," ++ b) "," = [a, b] := by
  have hdata : (a ++ "," ++ b).data = a.data ++ ',' :: b.data := by
    simp [String.data_append]
  have hsep : ("," : String).data = [','] := rfl
  unfold Split
  rw [hsep, if_neg (by simp), hdata, splitGo_single_cut ',' a.data b.data ha [],
    splitGo_single_free ',' b.data hb []]
  simp

/-- C10.  `getARN` does not depend on the order of the two elements: for
comma-free `a` and `b` of which exactly one contains `saml-provider/`,
`getARN(a + "," + b)` and `getARN(b + "," + a)` are the same pair, whose
ProviderARN is the element containing `saml-provider/` and whose RoleARN is
the other one. -/
theorem getARN_order_insensitive (a b : String)
    (ha : ',' ∉ a.data) (hb : ',' ∉ b.data)
    (hone : (Contains a "saml-provider/" = true ∧ Contains b "saml-provider/" = false)
      ∨ (Contains a "saml-provider/" = false ∧ Contains b "saml-provider/" = true)) :
    getARN (a ++ "," ++ b) = getARN (b ++ "," ++ a)
    ∧ (getARN (a ++ "," ++ b)).ProviderARN
        = (if Contains a "saml-provider/" = true then a else b)
    ∧ (getARN (a ++ "," ++ b)).RoleARN
        = (if Contains a "saml-provider/" = true then b else a) := by
  unfold getARN
  rw [Split_comma_pair a b ha hb, Split_comma_pair b a hb ha]
  rcases hone with ⟨h1, h2⟩ | ⟨h1, h2⟩ <;> simp [h1, h2]

/-- C10 at a provider ARN and a role ARN, in both orders. -/
theorem getARN_order_insensitive_witness :
    (',' ∉ ("arn:aws:iam::1:saml-provider/okta" : String).data
      ∧ ',' ∉ ("arn:aws:iam::1:role/Admin" : String).data
      ∧ Contains "arn:aws:iam::1:saml-provider/okta" "saml-provider/" = true
      ∧ Contains "arn:aws:iam::1:role/Admin" "saml-provider/" = false)
    ∧ getARN "arn:aws:iam::1:saml-provider/okta,arn:aws:iam::1:role/Admin"
        = getARN "arn:aws:iam::1:role/Admin,arn:aws:iam::1:saml-provider/okta"
    ∧ getARN "arn:aws:iam::1:role/Admin,arn:aws:iam::1:saml-provider/okta"
        = { RoleARN := "arn:aws:iam::1:role/Admin",
            ProviderARN := "arn:aws:iam::1:saml-provider/okta" } :=
  ⟨⟨by decide, by decide, by decide, by decide⟩,
    (getARN_order_insensitive "arn:aws:iam::1:saml-provider/okta" "arn:aws:iam::1:role/Admin"
      (by decide) (by decide) (Or.inl ⟨by decide, by decide⟩)).1,
    by decide⟩

/-! ## Properties of `FindRoleInSAML` and `ListSAMLRoles` -/

/-- A non-negative answer of `indexFrom` is a position of the text at which
the pattern occurs. -/
theorem indexFrom_found (sub : List Char) (s : List Char) (i : Nat)
    (h : 0 ≤ indexFrom sub s i) :
    ∃ k : Nat, indexFrom sub s i = ((i + k : Nat) : Int) ∧ k ≤ s.length
      ∧ sub.isPrefixOf (s.drop k) = true := by
  induction s generalizing i with
  | nil =>
    unfold indexFrom at h ⊢
    by_cases hs : sub = []
    · exact ⟨0, by simp [hs], le_refl _, by simp [hs]⟩
    · rw [if_neg hs] at h
      exact absurd h (by decide)
  | cons c cs ih =>
    unfold indexFrom at h ⊢
    by_cases hp : sub.isPrefixOf (c :: cs) = true
    · exact ⟨0, by simp [hp], Nat.zero_le _, by simpa using hp⟩
    · rw [if_neg hp] at h
      obtain ⟨k, hk, hlen, hpre⟩ := ih (i + 1) h
      refine ⟨k + 1, ?_, by simpa using hlen, by simpa using hpre⟩
      rw [if_neg hp, hk]
      congr 1
      omega

/-- The worker of `Split` never returns the empty slice. -/
theorem splitGo_ne_nil (sep s : List Char) (skip : Nat) (cur : List Char) :
    splitGo sep s skip cur ≠ [] := by
  induction s generalizing skip cur with
  | nil => simp [splitGo]
  | cons c cs ih =>
    cases skip with
    | succ k => rw [splitGo]; exact ih k cur
    | zero =>
      rw [splitGo]
      split
      · simp
      · exact ih 0 (c :: cur)

/-- For a pair whose role ARN contains `role/`, the role name is computed without a panic. -/
theorem roleNameOf_ok (p : RoleProviderPair) (h : Contains p.RoleARN roleSubstr = true) :
    ∃ n, roleNameOf p = .ok n := by
  have h0 : 0 ≤ indexFrom roleSubstr.data p.RoleARN.data 0 := by
    simpa [Contains, Index] using h
  obtain ⟨k, hk, hlen, hpre⟩ := indexFrom_found _ _ _ h0
  obtain ⟨rest, hrest⟩ := List.isPrefixOf_iff_prefix.mp hpre
  have hrest' : p.RoleARN.data.drop k = "role".data ++ '/' :: rest := by
    rw [← hrest]; rfl
  have hslice : sliceFrom p.RoleARN (Index p.RoleARN roleSubstr)
      = .ok ⟨"role".data ++ '/' :: rest⟩ := by
    unfold sliceFrom Index
    have hl : k ≤ p.RoleARN.length := hlen
    rw [hk, if_pos ⟨by omega, by omega⟩]
    simp [hrest']
  have hsplit : Split ⟨"role".data ++ '/' :: rest⟩ "/"
      = "role" :: (splitGo ['/'] rest 0 []).map String.mk := by
    have hsep : ("/" : String).data = ['/'] := rfl
    unfold Split
    rw [hsep, if_neg (List.cons_ne_nil _ _),
      splitGo_single_cut '/' "role".data rest (by decide) []]
    rfl
  have hne := splitGo_ne_nil ['/'] rest 0 []
  cases hs : splitGo ['/'] rest 0 [] with
  | nil => exact absurd hs hne
  | cons x xs =>
    refine ⟨String.mk x, ?_⟩
    unfold roleNameOf
    simp only [bind, Except.bind, hslice, hsplit, hs]
    rfl

/-- For a pair whose role ARN lacks `role/`, computing the role name panics
in the slice expression `p.RoleARN[idx:]`, where `idx` is `-1`. -/
theorem roleNameOf_panics (p : RoleProviderPair) (h : Contains p.RoleARN roleSubstr = false) :
    roleNameOf p = .error .sliceBoundsOutOfRange := by
  have h0 : ¬ 0 ≤ Index p.RoleARN roleSubstr := by
    simpa [Contains] using h
  have hs : sliceFrom p.RoleARN (Index p.RoleARN roleSubstr)
      = .error .sliceBoundsOutOfRange := by
    unfold sliceFrom
    exact if_neg (fun hc => h0 hc.1)
  unfold roleNameOf
  simp only [bind, Except.bind, hs]

/-- A role ARN containing `role/` is not the empty string. -/
theorem RoleARN_ne_empty (p : RoleProviderPair) (h : Contains p.RoleARN roleSubstr = true) :
    p.RoleARN ≠ "" := by
  intro he
  rw [he] at h
  exact absurd h (by decide)

/-- One turn of the matching loop on a pair whose role name is `n`. -/
theorem findLoop_cons (orbit : Char → Char → Bool) (name : String) (p : RoleProviderPair)
    (ps : List RoleProviderPair) (pair : RoleProviderPair) (n : String)
    (hn : roleNameOf p = .ok n) :
    findLoop orbit name (p :: ps) pair
      = findLoop orbit name ps (if EqualFold orbit n name = true then p else pair) := by
  rw [findLoop]
  simp only [bind, Except.bind, hn]

/-- On a well-formed value, `matchesRole` is the comparison the loop makes. -/
theorem matchesRole_eq (orbit : Char → Char → Bool) (name value n : String)
    (hn : roleNameOf (getARN value) = .ok n) :
    matchesRole orbit name value = EqualFold orbit n name := by
  simp only [matchesRole, hn]

/-- Over well-formed values none of which matches, the loop keeps `pair`. -/
theorem findLoop_no_match (orbit : Char → Char → Bool) (name : String) (vs : List String)
    (hwf : ∀ u ∈ vs, WellFormed u = true)
    (hno : ∀ u ∈ vs, matchesRole orbit name u = false) (pair : RoleProviderPair) :
    findLoop orbit name (vs.map getARN) pair = .ok pair := by
  induction vs generalizing pair with
  | nil => rfl
  | cons u us ih =>
    obtain ⟨n, hn⟩ := roleNameOf_ok (getARN u) (hwf u (List.mem_cons_self _ _))
    have hu := hno u (List.mem_cons_self _ _)
    rw [matchesRole_eq orbit name u n hn] at hu
    rw [List.map_cons, findLoop_cons orbit name _ _ _ n hn, hu]
    exact ih (fun x hx => hwf x (List.mem_cons_of_mem _ hx))
      (fun x hx => hno x (List.mem_cons_of_mem _ hx)) pair

/-- Over well-formed values, the loop ends with the pair of the last matching value. -/
theorem findLoop_last (orbit : Char → Char → Bool) (name : String)
    (pre : List String) (v : String) (post : List String)
    (hwf : ∀ u ∈ pre ++ v :: post, WellFormed u = true)
    (hv : matchesRole orbit name v = true)
    (hpost : ∀ u ∈ post, matchesRole orbit name u = false) (pair : RoleProviderPair) :
    findLoop orbit name ((pre ++ v :: post).map getARN) pair = .ok (getARN v) := by
  induction pre generalizing pair with
  | nil =>
    obtain ⟨n, hn⟩ := roleNameOf_ok (getARN v) (hwf v (by simp))
    rw [matchesRole_eq orbit name v n hn] at hv
    rw [List.nil_append, List.map_cons, findLoop_cons orbit name _ _ _ n hn, hv]
    exact findLoop_no_match orbit name post (fun x hx => hwf x (by simp [hx])) hpost _
  | cons u us ih =>
    obtain ⟨n, hn⟩ := roleNameOf_ok (getARN u) (hwf u (by simp))
    rw [List.cons_append, List.map_cons, findLoop_cons orbit name _ _ _ n hn]
    exact ih (fun x hx => hwf x (by
      rw [List.cons_append]
      exact List.mem_cons_of_mem _ hx)) _

/-- A list with an element satisfying `f` splits at the last such element. -/
theorem exists_last_true (f : String → Bool) (l : List String)
    (h : ∃ x ∈ l, f x = true) :
    ∃ pre v post, l = pre ++ v :: post ∧ f v = true ∧ ∀ u ∈ post, f u = false := by
  induction l with
  | nil =>
    obtain ⟨x, hx, _⟩ := h
    exact absurd hx (List.not_mem_nil _)
  | cons a l ih =>
    by_cases hl : ∃ x ∈ l, f x = true
    · obtain ⟨pre, v, post, hsplit, hv, hpost⟩ := ih hl
      exact ⟨a :: pre, v, post, by rw [hsplit, List.cons_append], hv, hpost⟩
    · have hall : ∀ u ∈ l, f u = false := by
        intro u hu
        cases hfu : f u with
        | false => rfl
        | true => exact absurd ⟨u, hu, hfu⟩ hl
      obtain ⟨x, hx, hfx⟩ := h
      rcases List.mem_cons.mp hx with hxa | hxl
      · exact ⟨[], a, l, rfl, hxa ▸ hfx, hall⟩
      · rw [hall x hxl] at hfx
        exact Bool.noConfusion hfx

/-- `FindRoleInSAML` on a response with at least one value, in terms of its loop. -/
theorem FindRoleInSAML_some (orbit : Char → Char → Bool) (name : String)
    (response : Response) (pair : RoleProviderPair)
    (hne : response.GetAttributeValues roleURL ≠ [])
    (hloop : findLoop orbit name ((response.GetAttributeValues roleURL).map getARN)
      { RoleARN := "", ProviderARN := "" } = .ok pair) :
    FindRoleInSAML orbit name (some response)
      = if pair.RoleARN = "" then .ok ({ RoleARN := "", ProviderARN := "" }, false)
        else .ok (pair, true) := by
  have hlen : ¬ (response.GetAttributeValues roleURL).length = 0 := by
    simpa [List.length_eq_zero] using hne
  have hlen' : ¬ ((response.GetAttributeValues roleURL).map getARN).length = 0 := by
    simpa [List.length_eq_zero] using hne
  unfold FindRoleInSAML
  simp only [if_neg hlen, if_neg hlen', hloop, bind, Except.bind]

/-- C7.  Matching is case-insensitive (`strings.EqualFold`) and the last
match wins: when every AWS role attribute value of the response is well
formed and at least one has an extracted role name equal to `name` ignoring
case, the values split as `pre ++ v :: post` with `v` the LAST matching
value (none in `post` matches), and `FindRoleInSAML` returns found = true
with the pair built from `v`. -/
theorem FindRoleInSAML_last_match (orbit : Char → Char → Bool) (name : String)
    (response : Response)
    (hwf : ∀ u ∈ response.GetAttributeValues roleURL, WellFormed u = true)
    (hex : ∃ u ∈ response.GetAttributeValues roleURL, matchesRole orbit name u = true) :
    ∃ pre v post, response.GetAttributeValues roleURL = pre ++ v :: post
      ∧ matchesRole orbit name v = true
      ∧ (∀ u ∈ post, matchesRole orbit name u = false)
      ∧ FindRoleInSAML orbit name (some response) = .ok (getARN v, true) := by
  obtain ⟨pre, v, post, hsplit, hv, hpost⟩ :=
    exists_last_true (matchesRole orbit name) _ hex
  refine ⟨pre, v, post, hsplit, hv, hpost, ?_⟩
  have hwf' : ∀ u ∈ pre ++ v :: post, WellFormed u = true := hsplit ▸ hwf
  have hloop := findLoop_last orbit name pre v post hwf' hv hpost
    { RoleARN := "", ProviderARN := "" }
  rw [← hsplit] at hloop
  rw [FindRoleInSAML_some orbit name response (getARN v)
    (by rw [hsplit]; simp) hloop]
  exact if_neg (RoleARN_ne_empty _ (hwf' v (by simp)))

/-- C7 at the spec's example: asking for `admin` finds `Admin` and returns
the pair of the second value. -/
theorem FindRoleInSAML_last_match_witness :
    (∀ u ∈ twoAdmins.GetAttributeValues roleURL, WellFormed u = true)
    ∧ (∃ u ∈ twoAdmins.GetAttributeValues roleURL,
        matchesRole (fun _ _ => false) "admin" u = true)
    ∧ (∃ pre v post, twoAdmins.GetAttributeValues roleURL = pre ++ v :: post
        ∧ matchesRole (fun _ _ => false) "admin" v = true
        ∧ (∀ u ∈ post, matchesRole (fun _ _ => false) "admin" u = false)
        ∧ FindRoleInSAML (fun _ _ => false) "admin" (some twoAdmins) = .ok (getARN v, true))
    ∧ FindRoleInSAML (fun _ _ => false) "admin" (some twoAdmins)
        = .ok ({ RoleARN := "arn:aws:iam::1:role/Admin",
                 ProviderARN := "arn:aws:iam::1:saml-provider/other" }, true) :=
  ⟨by decide, by decide,
    FindRoleInSAML_last_match (fun _ _ => false) "admin" twoAdmins (by decide) (by decide),
    rfl⟩

/-- C8.  `FindRoleInSAML` returns found = false with the zero pair when the
response is nil, when the response has no value for the AWS role attribute,
and when all values are well formed and none has an extracted role name
equal to the requested name ignoring case. -/
theorem FindRoleInSAML_not_found (orbit : Char → Char → Bool) (name : String) :
    FindRoleInSAML orbit name none = .ok ({ RoleARN := "", ProviderARN := "" }, false)
    ∧ (∀ response : Response, response.GetAttributeValues roleURL = [] →
        FindRoleInSAML orbit name (some response)
          = .ok ({ RoleARN := "", ProviderARN := "" }, false))
    ∧ (∀ response : Response,
        (∀ u ∈ response.GetAttributeValues roleURL, WellFormed u = true) →
        (∀ u ∈ response.GetAttributeValues roleURL, matchesRole orbit name u = false) →
        FindRoleInSAML orbit name (some response)
          = .ok ({ RoleARN := "", ProviderARN := "" }, false)) := by
  refine ⟨rfl, fun response hnil => ?_, fun response hwf hno => ?_⟩
  · unfold FindRoleInSAML
    simp only [hnil, List.length_nil, if_pos]
  · by_cases hnil : response.GetAttributeValues roleURL = []
    · unfold FindRoleInSAML
      simp only [hnil, List.length_nil, if_pos]
    · rw [FindRoleInSAML_some orbit name response { RoleARN := "", ProviderARN := "" } hnil
        (findLoop_no_match orbit name _ hwf hno _)]
      exact if_pos rfl

/-- C8 at concrete inputs: a response without the role attribute, and a
response whose only role is not the requested one. -/
theorem FindRoleInSAML_not_found_witness :
    (responseOf []).GetAttributeValues roleURL = []
    ∧ FindRoleInSAML (fun _ _ => false) "admin" (some (responseOf []))
        = .ok ({ RoleARN := "", ProviderARN := "" }, false)
    ∧ (∀ u ∈ readOnlyOnly.GetAttributeValues roleURL, WellFormed u = true)
    ∧ (∀ u ∈ readOnlyOnly.GetAttributeValues roleURL,
        matchesRole (fun _ _ => false) "admin" u = false)
    ∧ FindRoleInSAML (fun _ _ => false) "admin" (some readOnlyOnly)
        = .ok ({ RoleARN := "", ProviderARN := "" }, false) :=
  ⟨by decide,
    (FindRoleInSAML_not_found (fun _ _ => false) "admin").2.1 (responseOf []) (by decide),
    by decide, by decide,
    (FindRoleInSAML_not_found (fun _ _ => false) "admin").2.2 readOnlyOnly
      (by decide) (by decide)⟩

/-- The matching loop panics as soon as one value is malformed. -/
theorem findLoop_panics (orbit : Char → Char → Bool) (name : String) (vs : List String)
    (hbad : ∃ u ∈ vs, WellFormed u = false) (pair : RoleProviderPair) :
    findLoop orbit name (vs.map getARN) pair = .error .sliceBoundsOutOfRange := by
  induction vs generalizing pair with
  | nil =>
    obtain ⟨u, hu, _⟩ := hbad
    exact absurd hu (List.not_mem_nil _)
  | cons a l ih =>
    cases hwa : WellFormed a with
    | false =>
      rw [List.map_cons, findLoop]
      simp only [bind, Except.bind, roleNameOf_panics (getARN a) hwa]
    | true =>
      obtain ⟨n, hn⟩ := roleNameOf_ok (getARN a) hwa
      rw [List.map_cons, findLoop_cons orbit name _ _ _ n hn]
      refine ih ?_ _
      obtain ⟨u, hu, hwu⟩ := hbad
      rcases List.mem_cons.mp hu with hua | hul
      · rw [hua, hwa] at hwu
        exact Bool.noConfusion hwu
      · exact ⟨u, hul, hwu⟩

/-- The loop of `ListSAMLRoles` panics as soon as one value is malformed. -/
theorem listLoop_panics (vs : List String) (hbad : ∃ u ∈ vs, WellFormed u = false)
    (names : List String) :
    listLoop vs names = .error .sliceBoundsOutOfRange := by
  induction vs generalizing names with
  | nil =>
    obtain ⟨u, hu, _⟩ := hbad
    exact absurd hu (List.not_mem_nil _)
  | cons a l ih =>
    cases hwa : WellFormed a with
    | false =>
      rw [listLoop]
      simp only [bind, Except.bind, roleNameOf_panics (getARN a) hwa]
    | true =>
      obtain ⟨n, hn⟩ := roleNameOf_ok (getARN a) hwa
      rw [listLoop]
      simp only [bind, Except.bind, hn]
      refine ih ?_ _
      obtain ⟨u, hu, hwu⟩ := hbad
      rcases List.mem_cons.mp hu with hua | hul
      · rw [hua, hwa] at hwu
        exact Bool.noConfusion hwu
      · exact ⟨u, hul, hwu⟩

/-- Whenever some AWS role attribute value lacks `role/` in its role ARN,
both `FindRoleInSAML` and `ListSAMLRoles` panic with a slice bound out of
range; neither has a result through which a parse error could be reported. -/
theorem malformed_value_panics (orbit : Char → Char → Bool) (name : String)
    (response : Response)
    (hbad : ∃ u ∈ response.GetAttributeValues roleURL, WellFormed u = false) :
    FindRoleInSAML orbit name (some response) = .error .sliceBoundsOutOfRange
    ∧ ListSAMLRoles (some response) = .error .sliceBoundsOutOfRange := by
  have hne : response.GetAttributeValues roleURL ≠ [] := by
    intro he
    obtain ⟨u, hu, _⟩ := hbad
    rw [he] at hu
    exact absurd hu (List.not_mem_nil _)
  have hlen : ¬ (response.GetAttributeValues roleURL).length = 0 := by
    simpa [List.length_eq_zero] using hne
  have hlen' : ¬ ((response.GetAttributeValues roleURL).map getARN).length = 0 := by
    simpa [List.length_eq_zero] using hne
  constructor
  · unfold FindRoleInSAML
    simp only [if_neg hlen, if_neg hlen', findLoop_panics orbit name _ hbad, bind,
      Except.bind]
  · exact listLoop_panics _ hbad []

/-- C9 fails on the code.  On a response with a malformed AWS role attribute
value, with no `,` separator or with a role ARN lacking `role/`, both
`FindRoleInSAML` and `ListSAMLRoles` reach the slice expression
`p.RoleARN[idx:]` with `idx = -1` and panic, also when the requested role is
encoded by a well-formed value of the same response. -/
theorem malformed_role_value_panics :
    FindRoleInSAML (fun _ _ => false) "Admin" (some noSeparator)
        = .error .sliceBoundsOutOfRange
    ∧ ListSAMLRoles (some noSeparator) = .error .sliceBoundsOutOfRange
    ∧ FindRoleInSAML (fun _ _ => false) "Admin" (some noRoleSubstr)
        = .error .sliceBoundsOutOfRange
    ∧ ListSAMLRoles (some noRoleSubstr) = .error .sliceBoundsOutOfRange :=
  ⟨rfl, rfl, rfl, rfl⟩

/-! ## Properties of `ListSAMLRoles` -/

/-- The first piece of a split at a one-character separator is the text
before the first separator. -/
theorem splitGo_single_head (ch : Char) (s : List Char) (cur : List Char) :
    ∃ tl, splitGo [ch] s 0 cur = (cur.reverse ++ s.takeWhile (fun c => c ≠ ch)) :: tl := by
  induction s generalizing cur with
  | nil => exact ⟨[], by simp [splitGo]⟩
  | cons c cs ih =>
    by_cases hc : ch = c
    · refine ⟨splitGo [ch] cs 0 [], ?_⟩
      rw [splitGo, isPrefixOf_single, decide_eq_true hc]
      simp [hc]
    · obtain ⟨tl, htl⟩ := ih (c :: cur)
      refine ⟨tl, ?_⟩
      rw [splitGo, isPrefixOf_single, decide_eq_false hc]
      have hc' : c ≠ ch := fun e => hc e.symm
      simp [htl, hc']

/-- A non-negative answer of `indexFrom` is the position of the FIRST
occurrence: what follows it is what `afterFirst` returns. -/
theorem indexFrom_first (sub : List Char) (s : List Char) (i : Nat)
    (h : 0 ≤ indexFrom sub s i) :
    ∃ k : Nat, indexFrom sub s i = ((i + k : Nat) : Int) ∧ k ≤ s.length
      ∧ ∃ rest, s.drop k = sub ++ rest ∧ afterFirst sub s = some rest := by
  induction s generalizing i with
  | nil =>
    unfold indexFrom at h ⊢
    by_cases hs : sub = []
    · exact ⟨0, by simp [hs], le_refl _, [], by simp [hs], by simp [afterFirst, hs]⟩
    · rw [if_neg hs] at h
      exact absurd h (by decide)
  | cons c cs ih =>
    unfold indexFrom at h ⊢
    by_cases hp : sub.isPrefixOf (c :: cs) = true
    · obtain ⟨rest, hrest⟩ := List.isPrefixOf_iff_prefix.mp hp
      refine ⟨0, by simp [hp], Nat.zero_le _, rest, by simpa using hrest.symm, ?_⟩
      rw [afterFirst, if_pos hp, ← hrest]
      simp
    · rw [if_neg hp] at h
      obtain ⟨k, hk, hlen, rest, hdrop, hafter⟩ := ih (i + 1) h
      refine ⟨k + 1, ?_, by simpa using hlen, rest, by simpa using hdrop, ?_⟩
      · rw [if_neg hp, hk]
        congr 1
        omega
      · rw [afterFirst, if_neg hp]
        exact hafter

/-- For a pair whose role ARN contains `role/`, the role name the code
computes is the one the specification reads off the ARN. -/
theorem roleNameOf_spec (p : RoleProviderPair) (h : Contains p.RoleARN roleSubstr = true) :
    ∃ n, roleNameOf p = .ok n ∧ specRoleName p.RoleARN = some n := by
  have h0 : 0 ≤ indexFrom roleSubstr.data p.RoleARN.data 0 := by
    simpa [Contains, Index] using h
  obtain ⟨k, hk, hlen, rest, hdrop, hafter⟩ := indexFrom_first _ _ _ h0
  have hdrop' : p.RoleARN.data.drop k = "role".data ++ '/' :: rest := by
    rw [hdrop]; rfl
  have hslice : sliceFrom p.RoleARN (Index p.RoleARN roleSubstr)
      = .ok ⟨"role".data ++ '/' :: rest⟩ := by
    unfold sliceFrom Index
    have hl : k ≤ p.RoleARN.length := hlen
    rw [hk, if_pos ⟨by omega, by omega⟩]
    simp [hdrop']
  obtain ⟨tl, htl⟩ := splitGo_single_head '/' rest []
  have hsplit : Split ⟨"role".data ++ '/' :: rest⟩ "/"
      = "role" :: String.mk (rest.takeWhile (fun c => c ≠ '/')) :: tl.map String.mk := by
    have hsep : ("/" : String).data = ['/'] := rfl
    unfold Split
    rw [hsep, if_neg (List.cons_ne_nil _ _),
      splitGo_single_cut '/' "role".data rest (by decide) [], htl]
    rfl
  refine ⟨String.mk (rest.takeWhile (fun c => c ≠ '/')), ?_, ?_⟩
  · unfold roleNameOf
    simp only [bind, Except.bind, hslice, hsplit]
    rfl
  · unfold specRoleName
    have hafter' : afterFirst "role/".data p.RoleARN.data = some rest := hafter
    rw [hafter']
    rfl

/-- The loop of `ListSAMLRoles` over well-formed values appends, in order,
the specified role name of every value. -/
theorem listLoop_spec (vs : List String) (hwf : ∀ u ∈ vs, WellFormed u = true)
    (names : List String) :
    ∃ new, listLoop vs names = .ok (names ++ new)
      ∧ new.map some = vs.map (fun v => specRoleName (getARN v).RoleARN) := by
  induction vs generalizing names with
  | nil => exact ⟨[], by simp [listLoop], rfl⟩
  | cons a l ih =>
    obtain ⟨n, hn, hspec⟩ := roleNameOf_spec (getARN a) (hwf a (List.mem_cons_self _ _))
    obtain ⟨new, hnew, hmap⟩ := ih (fun x hx => hwf x (List.mem_cons_of_mem _ hx))
      (names ++ [n])
    refine ⟨n :: new, ?_, ?_⟩
    · rw [listLoop]
      simp only [bind, Except.bind, hn]
      rw [hnew]
      simp
    · simp [hmap, hspec]

/-- C11.  For a response whose AWS role attribute values are all well
formed, `ListSAMLRoles` returns one role name per attribute value, in
attribute order, each the part of the value's role ARN that follows the
first `role/` up to the next `/` or the end of the ARN; for a nil response
it returns the empty list. -/
theorem ListSAMLRoles_spec :
    ListSAMLRoles none = .ok []
    ∧ ∀ response : Response,
        (∀ u ∈ response.GetAttributeValues roleURL, WellFormed u = true) →
        ∃ names, ListSAMLRoles (some response) = .ok names
          ∧ names.length = (response.GetAttributeValues roleURL).length
          ∧ names.map some
              = (response.GetAttributeValues roleURL).map
                  (fun v => specRoleName (getARN v).RoleARN) := by
  refine ⟨rfl, fun response hwf => ?_⟩
  obtain ⟨new, hnew, hmap⟩ := listLoop_spec _ hwf []
  refine ⟨new, by simpa [ListSAMLRoles] using hnew, ?_, hmap⟩
  have := congrArg List.length hmap
  simpa using this

/-- C11 at three roles, one of them behind a path: the names come in attribute order. -/
theorem ListSAMLRoles_spec_witness :
    (∀ u ∈ threeRoles.GetAttributeValues roleURL, WellFormed u = true)
    ∧ (∃ names, ListSAMLRoles (some threeRoles) = .ok names
        ∧ names.length = (threeRoles.GetAttributeValues roleURL).length
        ∧ names.map some
            = (threeRoles.GetAttributeValues roleURL).map
                (fun v => specRoleName (getARN v).RoleARN))
    ∧ ListSAMLRoles (some threeRoles) = .ok ["Admin", "team", "ReadOnly"] :=
  ⟨by decide, ListSAMLRoles_spec.2 threeRoles (by decide), rfl⟩

/-! ## Properties of `findFirstFreePort` -/

/-- While every candidate fails, the loop only records the attempts. -/
theorem portLoop_all_busy (listen : String → Option Listener) (addr : String)
    (ports : List String) (hbusy : ∀ p ∈ ports, listen (JoinHostPort addr p) = none)
    (attempts : List String) :
    portLoop listen addr ports attempts
      = { sock := none, err := some .ErrNoPortsAvailable,
          attempts := attempts ++ ports.map (JoinHostPort addr) } := by
  induction ports generalizing attempts with
  | nil => simp [portLoop]
  | cons p ps ih =>
    rw [portLoop]
    simp only [hbusy p (List.mem_cons_self _ _)]
    rw [ih (fun q hq => hbusy q (List.mem_cons_of_mem _ hq))]
    simp

/-- The loop stops at the first candidate on which listening succeeds. -/
theorem portLoop_first_free (listen : String → Option Listener) (addr : String)
    (pre : List String) (p : String) (post : List String) (sock : Listener)
    (hbusy : ∀ q ∈ pre, listen (JoinHostPort addr q) = none)
    (hfree : listen (JoinHostPort addr p) = some sock) (attempts : List String) :
    portLoop listen addr (pre ++ p :: post) attempts
      = { sock := some sock, err := none,
          attempts := attempts ++ (pre ++ [p]).map (JoinHostPort addr) } := by
  induction pre generalizing attempts with
  | nil =>
    rw [List.nil_append, portLoop]
    simp only [hfree]
    simp
  | cons q qs ih =>
    rw [List.cons_append, portLoop]
    simp only [hbusy q (List.mem_cons_self _ _)]
    rw [ih (fun x hx => hbusy x (List.mem_cons_of_mem _ hx))]
    simp

/-- A list with an element satisfying `f` splits at the first such element. -/
theorem exists_first_true (f : String → Bool) (l : List String)
    (h : ∃ x ∈ l, f x = true) :
    ∃ pre v post, l = pre ++ v :: post ∧ f v = true ∧ ∀ u ∈ pre, f u = false := by
  induction l with
  | nil =>
    obtain ⟨x, hx, _⟩ := h
    exact absurd hx (List.not_mem_nil _)
  | cons a l ih =>
    cases hfa : f a with
    | true => exact ⟨[], a, l, rfl, hfa, fun u hu => absurd hu (List.not_mem_nil _)⟩
    | false =>
      have hl : ∃ x ∈ l, f x = true := by
        obtain ⟨x, hx, hfx⟩ := h
        rcases List.mem_cons.mp hx with hxa | hxl
        · rw [hxa, hfa] at hfx
          exact Bool.noConfusion hfx
        · exact ⟨x, hxl, hfx⟩
      obtain ⟨pre, v, post, hsplit, hv, hpre⟩ := ih hl
      refine ⟨a :: pre, v, post, by rw [hsplit, List.cons_append], hv, ?_⟩
      intro u hu
      rcases List.mem_cons.mp hu with hua | hul
      · rw [hua]; exact hfa
      · exact hpre u hul

/-- C12.  Over an environment `listen` saying which addresses can be bound:
when at least one candidate port is free, the candidates split as
`pre ++ p :: post` with `p` the FIRST free port, `findFirstFreePort` returns
the listener bound to `p` with a nil error, and its listen attempts are
exactly the candidates of `pre` followed by `p`, none of `post`. -/
theorem findFirstFreePort_first (listen : String → Option Listener) (addr : String)
    (ports : List String)
    (hfree : ∃ p ∈ ports, (listen (JoinHostPort addr p)).isSome = true) :
    ∃ pre p post sock, ports = pre ++ p :: post
      ∧ (∀ q ∈ pre, listen (JoinHostPort addr q) = none)
      ∧ listen (JoinHostPort addr p) = some sock
      ∧ (findFirstFreePort listen addr ports).sock = some sock
      ∧ (findFirstFreePort listen addr ports).err = none
      ∧ (findFirstFreePort listen addr ports).attempts
          = (pre ++ [p]).map (JoinHostPort addr) := by
  obtain ⟨pre, p, post, hsplit, hp, hpre⟩ :=
    exists_first_true (fun q => (listen (JoinHostPort addr q)).isSome) ports hfree
  obtain ⟨sock, hsock⟩ := Option.isSome_iff_exists.mp hp
  have hbusy : ∀ q ∈ pre, listen (JoinHostPort addr q) = none := by
    intro q hq
    have := hpre q hq
    cases hl : listen (JoinHostPort addr q) with
    | none => rfl
    | some s => simp [hl] at this
  have hrun := portLoop_first_free listen addr pre p post sock hbusy hsock []
  refine ⟨pre, p, post, sock, hsplit, hbusy, hsock, ?_, ?_, ?_⟩ <;>
    simp [findFirstFreePort, hsplit, hrun]

/-- C12 at the spec's example: port 1 busy, ports 2 and 3 free; port 2 is
bound and port 3 is never tried. -/
theorem findFirstFreePort_first_witness :
    (∃ p ∈ ["1", "2", "3"],
        (freePorts ["2", "3"] (JoinHostPort "127.0.0.1" p)).isSome = true)
    ∧ (∃ pre p post sock, ["1", "2", "3"] = pre ++ p :: post
        ∧ (∀ q ∈ pre, freePorts ["2", "3"] (JoinHostPort "127.0.0.1" q) = none)
        ∧ freePorts ["2", "3"] (JoinHostPort "127.0.0.1" p) = some sock
        ∧ (findFirstFreePort (freePorts ["2", "3"]) "127.0.0.1" ["1", "2", "3"]).sock
            = some sock
        ∧ (findFirstFreePort (freePorts ["2", "3"]) "127.0.0.1" ["1", "2", "3"]).err = none
        ∧ (findFirstFreePort (freePorts ["2", "3"]) "127.0.0.1" ["1", "2", "3"]).attempts
            = (pre ++ [p]).map (JoinHostPort "127.0.0.1"))
    ∧ findFirstFreePort (freePorts ["2", "3"]) "127.0.0.1" ["1", "2", "3"]
        = { sock := some { Addr := "127.0.0.1:2" }, err := none,
            attempts := ["127.0.0.1:1", "127.0.0.1:2"] } :=
  ⟨by decide,
    findFirstFreePort_first (freePorts ["2", "3"]) "127.0.0.1" ["1", "2", "3"] (by decide),
    by decide⟩

/-- C13.  `findFirstFreePort` returns `ErrNoPortsAvailable` exactly when
listening fails for every candidate, in particular for the empty list; a
returned error comes with no listener and a returned listener with a nil
error. -/
theorem findFirstFreePort_error_iff (listen : String → Option Listener) (addr : String)
    (ports : List String) :
    ((findFirstFreePort listen addr ports).err = some .ErrNoPortsAvailable
        ↔ ∀ p ∈ ports, listen (JoinHostPort addr p) = none)
    ∧ (findFirstFreePort listen addr []).err = some .ErrNoPortsAvailable
    ∧ ((findFirstFreePort listen addr ports).err ≠ none →
        (findFirstFreePort listen addr ports).sock = none)
    ∧ ((findFirstFreePort listen addr ports).sock ≠ none →
        (findFirstFreePort listen addr ports).err = none) := by
  by_cases hfree : ∃ p ∈ ports, (listen (JoinHostPort addr p)).isSome = true
  · obtain ⟨pre, p, post, sock, hsplit, _, hsock, hs, he, _⟩ :=
      findFirstFreePort_first listen addr ports hfree
    refine ⟨⟨fun h => ?_, fun h => ?_⟩, rfl, fun h => absurd he h, fun _ => he⟩
    · rw [he] at h
      exact Option.noConfusion h
    · have hp : p ∈ ports := by rw [hsplit]; simp
      rw [h p hp] at hsock
      exact Option.noConfusion hsock
  · have hbusy : ∀ p ∈ ports, listen (JoinHostPort addr p) = none := by
      intro p hp
      cases hl : listen (JoinHostPort addr p) with
      | none => rfl
      | some s => exact absurd ⟨p, hp, by simp [hl]⟩ hfree
    have hrun := portLoop_all_busy listen addr ports hbusy []
    refine ⟨⟨fun _ => hbusy, fun _ => ?_⟩, rfl, fun _ => ?_, fun h => ?_⟩
    · simp [findFirstFreePort, hrun]
    · simp [findFirstFreePort, hrun]
    · exact absurd (by simp [findFirstFreePort, hrun]) h

/-- C13 at two inputs: every port busy gives the error and no listener; a
free port gives a listener and no error. -/
theorem findFirstFreePort_error_iff_witness :
    (∀ p ∈ ["1", "2"], freePorts [] (JoinHostPort "127.0.0.1" p) = none)
    ∧ findFirstFreePort (freePorts []) "127.0.0.1" ["1", "2"]
        = { sock := none, err := some .ErrNoPortsAvailable,
            attempts := ["127.0.0.1:1", "127.0.0.1:2"] }
    ∧ (findFirstFreePort (freePorts []) "127.0.0.1" ["1", "2"]).err
        = some .ErrNoPortsAvailable
    ∧ (findFirstFreePort (freePorts ["2"]) "127.0.0.1" ["1", "2"]).err = none :=
  ⟨by decide, by decide,
    (findFirstFreePort_error_iff (freePorts []) "127.0.0.1" ["1", "2"]).1.2 (by decide),
    (findFirstFreePort_error_iff (freePorts ["2"]) "127.0.0.1" ["1", "2"]).2.2.2
      (by decide)⟩

/-! ## The time-to-live handed to the provider -/

/-- Where the limit holds: for a flag value of at least 1 and a configured
value of at most 8, the provider's time-to-live is between 1 and 8. -/
theorem getCmdTTL_bounds (ttl configTTL : Nat) (hflag : 1 ≤ ttl) (hcfg : configTTL ≤ 8) :
    1 ≤ getCmdTTL ttl configTTL ∧ getCmdTTL ttl configTTL ≤ 8 := by
  unfold getCmdTTL
  by_cases h8 : ttl > 8
  · simp only [if_pos h8]
    split <;> omega
  · simp only [if_neg h8]
    split <;> omega

/-- A flag value other than 0 and 1 escapes the configured value: the limit holds. -/
theorem getCmdTTL_flag (ttl configTTL : Nat) (hflag : 2 ≤ ttl) :
    2 ≤ getCmdTTL ttl configTTL ∧ getCmdTTL ttl configTTL ≤ 8 := by
  unfold getCmdTTL
  by_cases h8 : ttl > 8
  · simp only [if_pos h8]
    split <;> omega
  · simp only [if_neg h8]
    split <;> omega

/-- C14 fails on the code.  With `--ttl 0` and no configured value the
provider gets a time-to-live of 0 hours, a requested duration of 0 seconds;
with the default `--ttl 1` and a configured `config.TTL` of 100 it gets 100
hours, 360000 seconds: the limit is applied before the configured value
replaces the flag value, and there is no lower limit. -/
theorem getCmdTTL_out_of_bounds :
    getCmdTTL 0 0 = 0 ∧ timeoutInSeconds (getCmdTTL 0 0) = 0
    ∧ getCmdTTL 1 100 = 100 ∧ timeoutInSeconds (getCmdTTL 1 100) = 360000
    ∧ ¬ (1 ≤ getCmdTTL 0 0 ∧ getCmdTTL 0 0 ≤ 8)
    ∧ ¬ (1 ≤ getCmdTTL 1 100 ∧ getCmdTTL 1 100 ≤ 8) := by
  decide

/-! ## Validity of the pair `FindRoleInSAML` returns -/

/-- The matching loop ends with its initial pair or with one of the pairs it ran over. -/
theorem findLoop_result (orbit : Char → Char → Bool) (roleName : String)
    (ps : List RoleProviderPair) (pair0 pair : RoleProviderPair)
    (h : findLoop orbit roleName ps pair0 = .ok pair) :
    pair = pair0 ∨ pair ∈ ps := by
  induction ps generalizing pair0 with
  | nil =>
    rw [findLoop] at h
    exact Or.inl (Except.ok.inj h).symm
  | cons p ps ih =>
    cases hn : roleNameOf p with
    | error e =>
      rw [findLoop] at h
      simp only [bind, Except.bind, hn] at h
      exact Except.noConfusion h
    | ok n =>
      rw [findLoop_cons orbit roleName p ps pair0 n hn] at h
      rcases ih _ h with h1 | h1
      · by_cases hm : EqualFold orbit n roleName = true
        · rw [if_pos hm] at h1
          exact Or.inr (h1 ▸ List.mem_cons_self _ _)
        · rw [if_neg hm] at h1
          exact Or.inl h1
      · exact Or.inr (List.mem_cons_of_mem _ h1)

/-- C15 fails on the code.  For the single attribute value
`arn:aws:iam::1:role/Admin,` the role `admin` is found, and the returned
pair has an empty ProviderARN. -/
theorem FindRoleInSAML_found_invalid_pair :
    FindRoleInSAML (fun _ _ => false) "admin" (some emptyProvider)
        = .ok ({ RoleARN := "arn:aws:iam::1:role/Admin", ProviderARN := "" }, true)
    ∧ ({ RoleARN := "arn:aws:iam::1:role/Admin", ProviderARN := "" }
        : RoleProviderPair).ProviderARN = "" :=
  ⟨rfl, rfl⟩

/-- C15, amended.  Whenever `FindRoleInSAML` reports found = true, the
response is not nil, the returned pair is the one `getARN` builds from one
of its AWS role attribute values, and the RoleARN of the pair is non-empty;
the ProviderARN is not examined. -/
theorem FindRoleInSAML_found_role (orbit : Char → Char → Bool) (roleName : String)
    (response : Option Response) (pair : RoleProviderPair)
    (h : FindRoleInSAML orbit roleName response = .ok (pair, true)) :
    pair.RoleARN ≠ ""
    ∧ ∃ r, response = some r ∧ ∃ v ∈ r.GetAttributeValues roleURL, pair = getARN v := by
  cases response with
  | none =>
    have h' : (false : Bool) = true := congrArg Prod.snd (Except.ok.inj h)
    exact Bool.noConfusion h'
  | some r =>
    unfold FindRoleInSAML at h
    simp only at h
    split at h
    · have h' : (false : Bool) = true := congrArg Prod.snd (Except.ok.inj h)
      exact Bool.noConfusion h'
    · split at h
      · have h' : (false : Bool) = true := congrArg Prod.snd (Except.ok.inj h)
        exact Bool.noConfusion h'
      · cases hl : findLoop orbit roleName ((r.GetAttributeValues roleURL).map getARN)
            { RoleARN := "", ProviderARN := "" } with
        | error e =>
          simp only [bind, Except.bind, hl] at h
          exact Except.noConfusion h
        | ok found =>
          simp only [bind, Except.bind, hl] at h
          by_cases he : found.RoleARN = ""
          · rw [if_pos he] at h
            have h' : (false : Bool) = true := congrArg Prod.snd (Except.ok.inj h)
            exact Bool.noConfusion h'
          · rw [if_neg he] at h
            have hp : found = pair := congrArg Prod.fst (Except.ok.inj h)
            subst hp
            refine ⟨he, r, rfl, ?_⟩
            rcases findLoop_result orbit roleName _ _ _ hl with h0 | hmem
            · exact absurd (by rw [h0]) he
            · obtain ⟨v, hv, hgv⟩ := List.mem_map.mp hmem
              exact ⟨v, hv, hgv.symm⟩

/-- C15, amended, at the spec's example of two `Admin` values. -/
theorem FindRoleInSAML_found_role_witness :
    FindRoleInSAML (fun _ _ => false) "admin" (some twoAdmins)
        = .ok ({ RoleARN := "arn:aws:iam::1:role/Admin",
                 ProviderARN := "arn:aws:iam::1:saml-provider/other" }, true)
    ∧ ("arn:aws:iam::1:role/Admin" : String) ≠ "" :=
  ⟨rfl,
    (FindRoleInSAML_found_role (fun _ _ => false) "admin" (some twoAdmins)
      { RoleARN := "arn:aws:iam::1:role/Admin",
        ProviderARN := "arn:aws:iam::1:saml-provider/other" } rfl).1⟩

/-! ## Records produced by the exchange -/

/-- A record of the AWS exchange carries the AWS tag and no AccountID. -/
theorem aws_exchange_fields (cloudAws : String) (format : Time → String)
    (assumeRole : String → AssumeRoleWithSAMLInput → Except String AwsStsCredentials)
    (r : OktaAWSSAMLProvider) (response : SAMLResponse) (rp : RoleProviderPair)
    (c : CloudCredentials)
    (h : r.ExchangeAssertionForCredentials cloudAws format assumeRole response rp = .ok c) :
    c.AccountID = "" ∧ c.credentialsType = cloudAws := by
  unfold OktaAWSSAMLProvider.ExchangeAssertionForCredentials at h
  split at h
  · exact Except.noConfusion h
  · have hc := Except.ok.inj h
    subst hc
    exact ⟨rfl, rfl⟩

/-- A record of the Tencent exchange carries no tag and no AccountID. -/
theorem tencent_exchange_fields
    (assumeRole : String → TencentAssumeRoleWithSAMLRequest → Except String TencentStsResponse)
    (p : OktaTencentCloudSAMLProvider) (response : SAMLResponse) (rp : RoleProviderPair)
    (c : CloudCredentials)
    (h : p.ExchangeAssertionForCredentials assumeRole response rp = .ok c) :
    c.AccountID = "" ∧ c.credentialsType = "" := by
  unfold OktaTencentCloudSAMLProvider.ExchangeAssertionForCredentials at h
  split at h
  · exact Except.noConfusion h
  · have hc := Except.ok.inj h
    subst hc
    exact ⟨rfl, rfl⟩

/-- C16 fails on the code.  A successful exchange of the AWS provider for
the account `1234` yields a record with an empty AccountID; a successful
exchange of the Tencent provider yields a record with neither an AccountID
nor a cloud-type tag, which `WriteFormat` emits under the AWS variable names. -/
theorem exchange_leaves_fields_unset :
    sampleAwsProvider.AccountID = "1234"
    ∧ sampleAwsProvider.ExchangeAssertionForCredentials "aws" sampleFormat awsAnswers
          { original := "assertion" } samplePair
        = .ok { AccountID := "", AccessKeyID := "ak", SecretAccessKey := "sk",
                SessionToken := "tok", Expiration := "2024-01-01T01:00:00Z",
                credentialsType := "aws" }
    ∧ sampleTencentProvider.ExchangeAssertionForCredentials tencentAnswers
          { original := "assertion" } samplePair
        = .ok { AccountID := "", AccessKeyID := "ak", SecretAccessKey := "sk",
                SessionToken := "tok", Expiration := "2024-01-01T01:00:00Z",
                credentialsType := "" }
    ∧ WriteFormat "aws" "tencent" (fun _ => false) "bash"
          { AccountID := "", AccessKeyID := "ak", SecretAccessKey := "sk",
            SessionToken := "tok", Expiration := "2024-01-01T01:00:00Z",
            credentialsType := "" } "" shellTypeBash
        = "export AWS_ACCESS_KEY_ID=\"ak\"\nexport AWS_SECRET_ACCESS_KEY=\"sk\"\nexport AWS_SESSION_TOKEN=\"tok\"\nexport AWS_SECURITY_TOKEN=$AWS_SESSION_TOKEN\nexport TF_VAR_access_key=$AWS_ACCESS_KEY_ID\nexport TF_VAR_secret_key=$AWS_SECRET_ACCESS_KEY\nexport TF_VAR_token=$AWS_SESSION_TOKEN\nexport AWSKEY_EXPIRATION=\"2024-01-01T01:00:00Z\"\nexport AWSKEY_ACCOUNT=\"\"\n" :=
  ⟨rfl, rfl, rfl, by decide⟩

/-! ## The device the push goes to -/

/-- The device loop ends with the LAST device of type `Duo Duo Security`. -/
theorem selectDevice_last (pre : List Device) (d : Device) (post : List Device)
    (hd : d.DeviceType = "Duo Duo Security")
    (hpost : ∀ x ∈ post, x.DeviceType ≠ "Duo Duo Security") (device : Device) :
    selectDevice (pre ++ d :: post) device = d := by
  have hkeep : ∀ (l : List Device), (∀ x ∈ l, x.DeviceType ≠ "Duo Duo Security") →
      ∀ dev, selectDevice l dev = dev := by
    intro l
    induction l with
    | nil => intro _ dev; rfl
    | cons a l ih =>
      intro hl dev
      rw [selectDevice, if_neg (hl a (List.mem_cons_self _ _))]
      exact ih (fun x hx => hl x (List.mem_cons_of_mem _ hx)) dev
  induction pre generalizing device with
  | nil =>
    rw [List.nil_append, selectDevice, if_pos hd]
    exact hkeep post hpost d
  | cons a l ih =>
    rw [List.cons_append, selectDevice]
    exact ih _

/-- C17 fails on the code.  With two Duo devices in the list, the push goes
to the second: `MFA.Do` gets the transaction signature and the API host of
the last device of type `Duo Duo Security`, not of the first. -/
theorem push_goes_to_last_duo_device :
    mfaArguments twoDuoDevices
        = .ok ({ Id := 3, DeviceType := "Duo Duo Security",
                 ApiHostName := "api-second.duo.com",
                 SignatureRequest := "TX|second:APP|second" },
               ["TX|second", "state", "https://callback", "api-second.duo.com"])
    ∧ twoDuoDevices.Devices.find? (fun d => d.DeviceType = "Duo Duo Security")
        = some { Id := 1, DeviceType := "Duo Duo Security",
                 ApiHostName := "api-first.duo.com",
                 SignatureRequest := "TX|first:APP|first" } :=
  ⟨rfl, by decide⟩

/-! ## Round trip through the environment -/

/-- `WriteFormat` is the generic switch run with the selected writer. -/
theorem WriteFormat_eq_writeCloudWith (cloudAws cloudTencent : String) (t : Char → Bool)
    (inferred : ShellType) (c : CloudCredentials) (w : String) (format : ShellType) :
    WriteFormat cloudAws cloudTencent t inferred c w format
      = writeCloudWith cloudAws cloudTencent ((selectWriter inferred format).methods t) c w := by
  rfl

/-- The variables emitted for a record tagged AWS. -/
theorem emittedVariables_aws (cloudAws cloudTencent : String) (c : CloudCredentials)
    (hty : c.credentialsType = cloudAws) :
    emittedVariables cloudAws cloudTencent c
      = [ ("AWS_ACCESS_KEY_ID", c.AccessKeyID), ("AWS_SECRET_ACCESS_KEY", c.SecretAccessKey),
          ("AWS_SESSION_TOKEN", c.SessionToken), ("AWSKEY_EXPIRATION", c.Expiration),
          ("AWSKEY_ACCOUNT", c.AccountID) ] := by
  simp [emittedVariables, writeCloudWith, hty, writeAwsWith, variableRecorder]

/-- The variables emitted for a record tagged Tencent. -/
theorem emittedVariables_tencent (cloudAws cloudTencent : String) (c : CloudCredentials)
    (hne : cloudAws ≠ cloudTencent) (hty : c.credentialsType = cloudTencent) :
    emittedVariables cloudAws cloudTencent c
      = [ ("TENCENTCLOUD_SECRET_ID", c.AccessKeyID),
          ("TENCENTCLOUD_SECRET_KEY", c.SecretAccessKey),
          ("TENCENTCLOUD_TOKEN", c.SessionToken), ("TENCENTKEY_EXPIRATION", c.Expiration),
          ("TENCENTKEY_ACCOUNT", c.AccountID) ] := by
  have h1 : ¬ c.credentialsType = cloudAws := by
    rw [hty]; exact fun e => hne e.symm
  simp [emittedVariables, writeCloudWith, hty, h1, writeTencentWith, variableRecorder]
  exact fun e => absurd e.symm hne

/-- C18.  For a record tagged AWS, in an environment that maps every key
`WriteFormat` emits through `WriteVariable` to the emitted value,
`LoadAWSCredentialsFromEnvironment` returns the record itself: the five
fields and the cloud type; likewise for a record tagged Tencent and
`LoadTencentCredentialsFromEnvironment`. -/
theorem environment_round_trip (cloudAws cloudTencent : String) (hne : cloudAws ≠ cloudTencent)
    (c : CloudCredentials) (getenv : String → String)
    (henv : ∀ kv ∈ emittedVariables cloudAws cloudTencent c, getenv kv.1 = kv.2) :
    (c.credentialsType = cloudAws → LoadAWSCredentialsFromEnvironment cloudAws getenv = c)
    ∧ (c.credentialsType = cloudTencent →
        LoadTencentCredentialsFromEnvironment cloudTencent getenv = c) := by
  constructor
  · intro hty
    rw [emittedVariables_aws cloudAws cloudTencent c hty] at henv
    have h1 := henv ("AWS_ACCESS_KEY_ID", c.AccessKeyID) (by simp)
    have h2 := henv ("AWS_SECRET_ACCESS_KEY", c.SecretAccessKey) (by simp)
    have h3 := henv ("AWS_SESSION_TOKEN", c.SessionToken) (by simp)
    have h4 := henv ("AWSKEY_EXPIRATION", c.Expiration) (by simp)
    have h5 := henv ("AWSKEY_ACCOUNT", c.AccountID) (by simp)
    simp only at h1 h2 h3 h4 h5
    cases c
    simp only [LoadAWSCredentialsFromEnvironment, h1, h2, h3, h4, h5]
    simp only at hty
    rw [hty]
  · intro hty
    rw [emittedVariables_tencent cloudAws cloudTencent c hne hty] at henv
    have h1 := henv ("TENCENTCLOUD_SECRET_ID", c.AccessKeyID) (by simp)
    have h2 := henv ("TENCENTCLOUD_SECRET_KEY", c.SecretAccessKey) (by simp)
    have h3 := henv ("TENCENTCLOUD_TOKEN", c.SessionToken) (by simp)
    have h4 := henv ("TENCENTKEY_EXPIRATION", c.Expiration) (by simp)
    have h5 := henv ("TENCENTKEY_ACCOUNT", c.AccountID) (by simp)
    simp only at h1 h2 h3 h4 h5
    cases c
    simp only [LoadTencentCredentialsFromEnvironment, h1, h2, h3, h4, h5]
    simp only at hty
    rw [hty]

/-- C18 at the test's record, tagged AWS and tagged Tencent, in the
environment made of the emitted variables. -/
theorem environment_round_trip_witness :
    "aws" ≠ "tencent"
    ∧ (∀ kv ∈ emittedVariables "aws" "tencent" sampleCredentials,
        envOf (emittedVariables "aws" "tencent" sampleCredentials) kv.1 = kv.2)
    ∧ LoadAWSCredentialsFromEnvironment "aws"
        (envOf (emittedVariables "aws" "tencent" sampleCredentials)) = sampleCredentials
    ∧ (∀ kv ∈ emittedVariables "aws" "tencent" tencentCredentials,
        envOf (emittedVariables "aws" "tencent" tencentCredentials) kv.1 = kv.2)
    ∧ LoadTencentCredentialsFromEnvironment "tencent"
        (envOf (emittedVariables "aws" "tencent" tencentCredentials)) = tencentCredentials :=
  ⟨by decide, by decide,
    (environment_round_trip "aws" "tencent" (by decide) sampleCredentials
      (envOf (emittedVariables "aws" "tencent" sampleCredentials)) (by decide)).1 rfl,
    by decide,
    (environment_round_trip "aws" "tencent" (by decide) tencentCredentials
      (envOf (emittedVariables "aws" "tencent" tencentCredentials)) (by decide)).2 rfl⟩

end KeyConjurer
